import Mathlib

/-!
Verification of the vibe-trade-mcp strategy authoring/compilation service.

This file gives a shallow embedding, in Lean 4, of the parts of the source
that the specification's claims are about:

* the JSON value model used for card slots, attachment overrides and
  archetype schemas (`Json` below; Python `dict`s are ordered association
  lists, as CPython guarantees insertion order);
* `deep_merge` from `src/tools/strategy_tools.py` (both as a pure function
  on JSON trees and as a heap-based function that makes the mutation
  discipline of the Python code explicit);
* `_validate_slots_against_schema` from `src/tools/card_tools.py`, on top
  of a model of the third-party `jsonschema` library (draft-7 subset,
  raise-first-error semantics, with `RefResolutionError` distinct from
  `ValidationError`, as in the library);
* the `compile_strategy` and `validate_strategy` pipelines from
  `src/tools/strategy_tools.py`, including the sub-spec extractors, the
  composition checks, the single-asset (MVP) checks and the
  data-requirement flattening;
* `update_strategy_meta` together with `StrategyRepository.update`
  (`src/db/strategy_repository.py`);
* `get_archetype_schema` from `src/tools/trading_tools.py`;
* `create_card` from `src/tools/card_tools.py`.

Python exceptions are modelled with `Except`; the wall clock and
Firestore-generated ids are passed as explicit parameters.
-/

namespace VibeTrade

/-- JSON values. Python dicts keep insertion order, so objects are ordered
association lists; numbers are restricted to integers, which covers every
value the claims exercise. -/
inductive Json where
  | null : Json
  | bool : Bool → Json
  | num : Int → Json
  | str : String → Json
  | arr : List Json → Json
  | obj : List (String × Json) → Json

mutual

/-- Structural equality test for JSON values. -/
def Json.beq : Json → Json → Bool
  | .null, .null => true
  | .bool a, .bool b => a == b
  | .num a, .num b => a == b
  | .str a, .str b => a == b
  | .arr a, .arr b => Json.beqList a b
  | .obj a, .obj b => Json.beqFields a b
  | _, _ => false

/-- Structural equality on lists of JSON values. -/
def Json.beqList : List Json → List Json → Bool
  | [], [] => true
  | x :: xs, y :: ys => Json.beq x y && Json.beqList xs ys
  | _, _ => false

/-- Structural equality on JSON object fields. -/
def Json.beqFields (fa fb : List (String × Json)) : Bool :=
  match fa, fb with
  | [], [] => true
  | e :: rest, e' :: rest' =>
      e.1 == e'.1 && Json.beq e.2 e'.2 && Json.beqFields rest rest'
  | _, _ => false

end

mutual

theorem Json.beq_iff_eq : ∀ a b : Json, Json.beq a b = true ↔ a = b
  | .null, .null => by simp [Json.beq]
  | .bool _, .bool _ => by simp [Json.beq]
  | .num _, .num _ => by simp [Json.beq]
  | .str _, .str _ => by simp [Json.beq]
  | .arr x, .arr y => by simp [Json.beq, Json.beqList_iff_eq x y]
  | .obj x, .obj y => by simp [Json.beq, Json.beqFields_iff_eq x y]
  | .null, .bool _ | .null, .num _ | .null, .str _ | .null, .arr _ | .null, .obj _
  | .bool _, .null | .bool _, .num _ | .bool _, .str _ | .bool _, .arr _ | .bool _, .obj _
  | .num _, .null | .num _, .bool _ | .num _, .str _ | .num _, .arr _ | .num _, .obj _
  | .str _, .null | .str _, .bool _ | .str _, .num _ | .str _, .arr _ | .str _, .obj _
  | .arr _, .null | .arr _, .bool _ | .arr _, .num _ | .arr _, .str _ | .arr _, .obj _
  | .obj _, .null | .obj _, .bool _ | .obj _, .num _ | .obj _, .str _ | .obj _, .arr _ => by
      simp [Json.beq]

theorem Json.beqList_iff_eq : ∀ a b : List Json, Json.beqList a b = true ↔ a = b
  | [], [] => by simp [Json.beqList]
  | x :: xs, y :: ys => by
      simp [Json.beqList, Json.beq_iff_eq x y, Json.beqList_iff_eq xs ys]
  | [], _ :: _ => by simp [Json.beqList]
  | _ :: _, [] => by simp [Json.beqList]

theorem Json.beqFields_iff_eq :
    ∀ a b : List (String × Json), Json.beqFields a b = true ↔ a = b
  | [], [] => by simp [Json.beqFields]
  | (k₁, v₁) :: xs, (k₂, v₂) :: ys => by
      simp [Json.beqFields, Json.beq_iff_eq v₁ v₂, Json.beqFields_iff_eq xs ys,
        and_assoc]
  | [], _ :: _ => by simp [Json.beqFields]
  | _ :: _, [] => by simp [Json.beqFields]

end

instance : DecidableEq Json := fun a b => decidable_of_iff _ (Json.beq_iff_eq a b)

instance : BEq Json := ⟨Json.beq⟩

instance {ε α : Type} [DecidableEq ε] [DecidableEq α] : DecidableEq (Except ε α)
  | .ok a, .ok b => decidable_of_iff (a = b) (by simp)
  | .error e, .error f => decidable_of_iff (e = f) (by simp)
  | .ok _, .error _ => isFalse (by simp)
  | .error _, .ok _ => isFalse (by simp)

/-- First-occurrence lookup in an ordered association list, mirroring
`key in d` / `d[key]` on a Python dict (whose keys are unique). -/
def jlookup (kvs : List (String × Json)) (k : String) : Option Json :=
  match kvs with
  | [] => none
  | (k', v) :: rest => if k' = k then some v else jlookup rest k

/-- Python `d[key] = value`: replace the value at the first occurrence of the
key, keeping its position, or append the binding at the end. -/
def assocSet (kvs : List (String × Json)) (k : String) (v : Json) :
    List (String × Json) :=
  match kvs with
  | [] => [(k, v)]
  | (k', v') :: rest =>
      if k' = k then (k', v) :: rest else (k', v') :: assocSet rest k v

/-- Keys of an object, in order. -/
def keysOf (kvs : List (String × Json)) : List String := kvs.map Prod.fst

/-- Python truthiness on JSON values: `None`, `False`, `0`, `""`, `[]` and
`{}` are falsy. -/
def Json.truthy : Json → Bool
  | .null => false
  | .bool b => b
  | .num n => n != 0
  | .str s => s ≠ ""
  | .arr xs => !xs.isEmpty
  | .obj kvs => !kvs.isEmpty

/-- Embedding of `deep_merge` from `compile_strategy` / `validate_strategy`
(src/tools/strategy_tools.py). Both call sites pass dicts, so the function
is stated on object entry lists:

    def deep_merge(base: dict, override: dict) -> dict:
        result = base.copy()
        for key, value in override.items():
            if (key in result and isinstance(result[key], dict)
                    and isinstance(value, dict)):
                result[key] = deep_merge(result[key], value)
            else:
                result[key] = value
        return result
-/
def deepMerge (base override : List (String × Json)) : List (String × Json) :=
  match override with
  | [] => base
  | (k, v) :: rest =>
      match v, jlookup base k with
      | .obj okvs, some (.obj bkvs) =>
          deepMerge (assocSet base k (.obj (deepMerge bkvs okvs))) rest
      | .obj _, _ => deepMerge (assocSet base k v) rest
      | _, _ => deepMerge (assocSet base k v) rest
termination_by sizeOf override
decreasing_by
  all_goals simp_wf <;> omega

theorem jlookup_assocSet_self (kvs : List (String × Json)) (k : String) (v : Json) :
    jlookup (assocSet kvs k v) k = some v := by
  induction kvs with
  | nil => simp [assocSet, jlookup]
  | cons kv rest ih =>
      obtain ⟨k', v'⟩ := kv
      by_cases h : k' = k
      · simp [assocSet, jlookup, h]
      · simp [assocSet, jlookup, h, ih]

theorem jlookup_assocSet_ne (kvs : List (String × Json)) (k k' : String) (v : Json)
    (h : k' ≠ k) : jlookup (assocSet kvs k' v) k = jlookup kvs k := by
  induction kvs with
  | nil => simp [assocSet, jlookup, h]
  | cons kv rest ih =>
      obtain ⟨k₀, v₀⟩ := kv
      by_cases h₀ : k₀ = k'
      · subst h₀
        simp [assocSet, jlookup, h]
      · simp only [assocSet, if_neg h₀]
        by_cases h₁ : k₀ = k
        · simp [jlookup, h₁]
        · simp [jlookup, h₁, ih]

theorem keysOf_cons (k : String) (v : Json) (rest : List (String × Json)) :
    keysOf ((k, v) :: rest) = k :: keysOf rest := rfl

theorem jlookup_eq_none_of_not_mem (kvs : List (String × Json)) (k : String)
    (h : k ∉ keysOf kvs) : jlookup kvs k = none := by
  induction kvs with
  | nil => simp [jlookup]
  | cons kv rest ih =>
      obtain ⟨k', v'⟩ := kv
      rw [keysOf_cons, List.mem_cons] at h
      push_neg at h
      simp [jlookup, Ne.symm h.1, ih h.2]

theorem deepMerge_lookup_not_overridden (base override : List (String × Json))
    (k : String) (h : jlookup override k = none) :
    jlookup (deepMerge base override) k = jlookup base k := by
  induction override generalizing base with
  | nil => simp [deepMerge]
  | cons kv rest ih =>
      obtain ⟨k', v⟩ := kv
      have hk : k' ≠ k := by
        intro he
        simp [jlookup, he] at h
      have hrest : jlookup rest k = none := by
        simpa [jlookup, hk] using h
      have hset : ∀ w, jlookup (assocSet base k' w) k = jlookup base k :=
        fun w => jlookup_assocSet_ne base k k' w hk
      cases hv : v with
      | obj okvs =>
          cases hb : jlookup base k' with
          | none => simp [deepMerge, hb, ih _ hrest, hset]
          | some bv =>
              cases bv <;> simp [deepMerge, hb, ih _ hrest, hset]
      | null => simp [deepMerge, ih _ hrest, hset]
      | bool b => simp [deepMerge, ih _ hrest, hset]
      | num n => simp [deepMerge, ih _ hrest, hset]
      | str s => simp [deepMerge, ih _ hrest, hset]
      | arr xs => simp [deepMerge, ih _ hrest, hset]

/-- The value `deep_merge` stores for a key the override does supply: when
both sides hold objects the merge recurses, otherwise the override's value
(null and arrays included) replaces the base's. -/
def mergedValue (base : List (String × Json)) (k : String) (v : Json) : Json :=
  match v, jlookup base k with
  | .obj okvs, some (.obj bkvs) => .obj (deepMerge bkvs okvs)
  | _, _ => v

theorem deepMerge_lookup_overridden (base override : List (String × Json))
    (k : String) (v : Json) (hnd : (keysOf override).Nodup)
    (h : jlookup override k = some v) :
    jlookup (deepMerge base override) k = some (mergedValue base k v) := by
  induction override generalizing base with
  | nil => simp [jlookup] at h
  | cons kv rest ih =>
      obtain ⟨k', v'⟩ := kv
      have hnd' : (keysOf rest).Nodup := by
        simpa [keysOf] using hnd.of_cons
      by_cases hk : k' = k
      · subst hk
        have hv : v' = v := by simpa [jlookup] using h
        subst hv
        have hknot : jlookup rest k' = none := by
          refine jlookup_eq_none_of_not_mem rest k' ?_
          rw [keysOf_cons] at hnd
          exact (List.nodup_cons.mp hnd).1
        have hfin : ∀ w, jlookup (deepMerge (assocSet base k' w) rest) k' = some w := by
          intro w
          rw [deepMerge_lookup_not_overridden _ _ _ hknot]
          exact jlookup_assocSet_self base k' w
        cases v' with
        | obj okvs =>
            cases hb : jlookup base k' with
            | none => simp [deepMerge, hb, hfin, mergedValue]
            | some bv =>
                cases bv <;> simp [deepMerge, hb, hfin, mergedValue]
        | null => simp [deepMerge, hfin, mergedValue]
        | bool b => simp [deepMerge, hfin, mergedValue]
        | num n => simp [deepMerge, hfin, mergedValue]
        | str s => simp [deepMerge, hfin, mergedValue]
        | arr xs => simp [deepMerge, hfin, mergedValue]
      · have hrest : jlookup rest k = some v := by
          simpa [jlookup, hk] using h
        have hset : ∀ w, jlookup (assocSet base k' w) k = jlookup base k :=
          fun w => jlookup_assocSet_ne base k k' w hk
        have hmv : ∀ w, mergedValue (assocSet base k' w) k v = mergedValue base k v := by
          intro w
          simp [mergedValue, hset]
        have step : ∀ w, jlookup (deepMerge (assocSet base k' w) rest) k
            = some (mergedValue base k v) := by
          intro w
          rw [ih (assocSet base k' w) hnd' hrest, hmv w]
        cases v' with
        | obj okvs =>
            cases hb : jlookup base k' with
            | none => simp [deepMerge, hb, step]
            | some bv =>
                cases bv <;> simp [deepMerge, hb, step]
        | null => simp [deepMerge, step]
        | bool b => simp [deepMerge, step]
        | num n => simp [deepMerge, step]
        | str s => simp [deepMerge, step]
        | arr xs => simp [deepMerge, step]

/-! Heap model of `deep_merge`, for the mutation discipline. Python dicts
are objects on a heap; `result = base.copy()` allocates a fresh dict whose
entries still reference the old sub-dicts, and every assignment the function
performs targets such a fresh copy. To state that the call leaves `base`
(and everything reachable from it) untouched, dicts live in an explicit
heap and are referenced by address. -/

/-- Heap values: dicts are references into the heap, other JSON values are
inline (the function only ever asks `isinstance(-, dict)`). -/
inductive HVal where
  | null : HVal
  | bool : Bool → HVal
  | num : Int → HVal
  | str : String → HVal
  | arr : List HVal → HVal
  | ref : Nat → HVal

/-- The contents of one dict object: an ordered association list. -/
abbrev HDict := List (String × HVal)

/-- The heap: cell `a` is the dict at address `a`. -/
structure Heap where
  cells : List HDict

/-- Dereference a dict address. -/
def Heap.read (h : Heap) (a : Nat) : Option HDict := h.cells.get? a

/-- Overwrite the dict at an existing address. -/
def Heap.write (h : Heap) (a : Nat) (d : HDict) : Heap := ⟨h.cells.set a d⟩

/-- Allocate a fresh dict (the address is the old heap size). -/
def Heap.alloc (h : Heap) (d : HDict) : Heap × Nat :=
  (⟨h.cells ++ [d]⟩, h.cells.length)

/-- First-occurrence lookup in a heap dict. -/
def hlookup (kvs : HDict) (k : String) : Option HVal :=
  match kvs with
  | [] => none
  | (k', v) :: rest => if k' = k then some v else hlookup rest k

/-- In-place `d[key] = value` on a heap dict's contents. -/
def hAssocSet (kvs : HDict) (k : String) (v : HVal) : HDict :=
  match kvs with
  | [] => [(k, v)]
  | (k', v') :: rest =>
      if k' = k then (k', v) :: rest else (k', v') :: hAssocSet rest k v

mutual

/-- Heap semantics of `deep_merge(base, override)`: copy the base dict into
a fresh cell, then run the `for key, value in override.items()` loop against
that copy. Fuel bounds the recursion (Python would not terminate on cyclic
dicts either); `none` means out of fuel or a dangling address. -/
def deepMergeH (fuel : Nat) (h : Heap) (ab ao : Nat) : Option (Heap × Nat) :=
  match fuel with
  | 0 => none
  | fuel + 1 =>
      match h.read ab, h.read ao with
      | some bd, some od =>
          match h.alloc bd with
          | (h₁, ar) =>
              match deepMergeLoop fuel h₁ ar od with
              | some h₂ => some (h₂, ar)
              | none => none
      | _, _ => none
termination_by structural fuel

/-- One pass of the loop body per override entry: the else-branch writes the
override's value into the result; the both-dicts branch recurses and writes
the reference to the freshly merged dict. -/
def deepMergeLoop (fuel : Nat) (h : Heap) (ar : Nat) (entries : HDict) : Option Heap :=
  match fuel with
  | 0 => none
  | fuel + 1 =>
      match entries with
      | [] => some h
      | (k, v) :: rest =>
          match h.read ar with
          | none => none
          | some rd =>
              match hlookup rd k, v with
              | some (.ref a₁), .ref a₂ =>
                  match deepMergeH fuel h a₁ a₂ with
                  | some (h', a') =>
                      match h'.read ar with
                      | none => none
                      | some rd' =>
                          deepMergeLoop fuel (h'.write ar (hAssocSet rd' k (.ref a'))) ar rest
                  | none => none
              | _, _ => deepMergeLoop fuel (h.write ar (hAssocSet rd k v)) ar rest
termination_by structural fuel

end

theorem heap_write_length (h : Heap) (a : Nat) (d : HDict) :
    (h.write a d).cells.length = h.cells.length := by
  simp [Heap.write]

theorem heap_write_read_ne (h : Heap) (a b : Nat) (d : HDict) (hne : b ≠ a) :
    (h.write a d).read b = h.read b := by
  simp [Heap.write, Heap.read, List.getElem?_set_ne (Ne.symm hne)]

theorem heap_alloc_read_lt (h : Heap) (d : HDict) (a : Nat)
    (ha : a < h.cells.length) : (h.alloc d).1.read a = h.read a := by
  simp [Heap.alloc, Heap.read, List.getElem?_append, ha]

mutual

/-- `deep_merge` writes only to dicts it allocates itself: every address that
existed before the call reads the same afterwards. -/
theorem deepMergeH_frame (fuel : Nat) (h : Heap) (ab ao : Nat) (h' : Heap) (ar : Nat)
    (he : deepMergeH fuel h ab ao = some (h', ar)) :
    h.cells.length ≤ h'.cells.length ∧ h.cells.length ≤ ar ∧
      ∀ a, a < h.cells.length → h'.read a = h.read a := by
  match fuel with
  | 0 => simp [deepMergeH] at he
  | fuel + 1 =>
      rw [deepMergeH] at he
      cases hb : h.read ab with
      | none => rw [hb] at he; simp at he
      | some bd =>
          cases ho : h.read ao with
          | none => rw [hb, ho] at he; simp at he
          | some od =>
              rw [hb, ho] at he
              simp only at he
              cases hl : deepMergeLoop fuel ⟨h.cells ++ [bd]⟩ h.cells.length od with
              | none => rw [Heap.alloc] at he; simp [hl] at he
              | some h₂ =>
                  rw [Heap.alloc] at he
                  simp [hl] at he
                  obtain ⟨he₁, he₂⟩ := he
                  subst he₁
                  subst he₂
                  have hfr := deepMergeLoop_frame fuel ⟨h.cells ++ [bd]⟩
                    h.cells.length od h₂ hl
                  have hlen : h.cells.length + 1 ≤ h₂.cells.length := by
                    have := hfr.1
                    simpa using this
                  refine ⟨by omega, le_refl _, ?_⟩
                  intro a halt
                  have h1 : h₂.read a = Heap.read ⟨h.cells ++ [bd]⟩ a := by
                    refine hfr.2 a ?_ (by omega)
                    simp
                    omega
                  rw [h1]
                  exact heap_alloc_read_lt h bd a halt
termination_by structural fuel

/-- The merge loop writes only to its result dict and to fresh cells. -/
theorem deepMergeLoop_frame (fuel : Nat) (h : Heap) (ar : Nat) (entries : HDict)
    (h' : Heap) (he : deepMergeLoop fuel h ar entries = some h') :
    h.cells.length ≤ h'.cells.length ∧
      ∀ a, a < h.cells.length → a ≠ ar → h'.read a = h.read a := by
  match fuel, entries with
  | 0, _ =>
      rw [deepMergeLoop] at he
      cases he
  | fuel + 1, [] =>
      rw [deepMergeLoop] at he
      simp at he
      subst he
      exact ⟨le_refl _, fun a _ _ => rfl⟩
  | fuel + 1, (k, v) :: rest =>
      rw [deepMergeLoop] at he
      cases hr : h.read ar with
      | none => rw [hr] at he; simp at he
      | some rd =>
          rw [hr] at he
          simp only at he
          by_cases hcase : ∃ a₁ a₂, hlookup rd k = some (.ref a₁) ∧ v = .ref a₂
          · obtain ⟨a₁, a₂, hl₁, hl₂⟩ := hcase
            rw [hl₁, hl₂] at he
            simp only at he
            cases hrec : deepMergeH fuel h a₁ a₂ with
            | none => rw [hrec] at he; simp at he
            | some pair =>
                obtain ⟨hm, am⟩ := pair
                rw [hrec] at he
                simp only at he
                cases hrd : hm.read ar with
                | none => rw [hrd] at he; simp at he
                | some rd' =>
                    rw [hrd] at he
                    simp only at he
                    have hfr₁ := deepMergeH_frame fuel h a₁ a₂ hm am hrec
                    have hfr₂ := deepMergeLoop_frame fuel
                      (hm.write ar (hAssocSet rd' k (.ref am))) ar rest h' he
                    constructor
                    · calc h.cells.length ≤ hm.cells.length := hfr₁.1
                        _ = (hm.write ar (hAssocSet rd' k (.ref am))).cells.length := by
                            rw [heap_write_length]
                        _ ≤ h'.cells.length := hfr₂.1
                    · intro a ha hne
                      have hr₂ : h'.read a =
                          (hm.write ar (hAssocSet rd' k (.ref am))).read a := by
                        refine hfr₂.2 a ?_ hne
                        rw [heap_write_length]
                        exact lt_of_lt_of_le ha hfr₁.1
                      rw [hr₂, heap_write_read_ne _ _ _ _ hne]
                      exact hfr₁.2.2 a ha
          · push_neg at hcase
            have hstep : deepMergeLoop fuel (h.write ar (hAssocSet rd k v)) ar rest
                = some h' := by
              cases hl : hlookup rd k with
              | none =>
                  rw [hl] at he
                  cases v <;> simpa using he
              | some w =>
                  rw [hl] at he
                  cases w with
                  | ref a₁ =>
                      cases v with
                      | ref a₂ => exact absurd rfl (hcase a₁ a₂ hl)
                      | null => simpa using he
                      | bool b => simpa using he
                      | num n => simpa using he
                      | str s => simpa using he
                      | arr xs => simpa using he
                  | null => cases v <;> simpa using he
                  | bool b => cases v <;> simpa using he
                  | num n => cases v <;> simpa using he
                  | str s => cases v <;> simpa using he
                  | arr xs => cases v <;> simpa using he
            have hfr := deepMergeLoop_frame fuel (h.write ar (hAssocSet rd k v)) ar
              rest h' hstep
            constructor
            · calc h.cells.length = (h.write ar (hAssocSet rd k v)).cells.length := by
                    rw [heap_write_length]
                _ ≤ h'.cells.length := hfr.1
            · intro a ha hne
              have : h'.read a = (h.write ar (hAssocSet rd k v)).read a := by
                refine hfr.2 a ?_ hne
                rw [heap_write_length]
                exact ha
              rw [this, heap_write_read_ne _ _ _ _ hne]
termination_by structural fuel

end

/-! Model of Python exceptions and of the small part of Python's data model
(`in`, `[]`, `.get`, truthiness, `str()`/`repr()`) the tools use. -/

/-- The exceptions the embedded code can raise. `validationError` stands for
`jsonschema.ValidationError` (with the error's `absolute_path` and message);
`refResolutionError` for `jsonschema.RefResolutionError`, which is NOT a
subclass of `ValidationError`. `fuelExhausted` is a model artifact bounding
`$ref` chains. -/
inductive PyExc where
  | validationError : List String → String → PyExc
  | refResolutionError : String → PyExc
  | fuelExhausted : PyExc
  | structuredToolError : String → String → PyExc
  | attributeError : String → PyExc
  | keyError : String → PyExc
  | typeError : String → PyExc
  | valueError : String → PyExc
deriving DecidableEq

mutual

/-- Python `repr()` of a JSON value (used inside f-string messages). -/
def pyRepr : Json → String
  | .null => "None"
  | .bool true => "True"
  | .bool false => "False"
  | .num n => toString n
  | .str s => "'" ++ s ++ "'"
  | .arr xs => "[" ++ pyReprList xs ++ "]"
  | .obj kvs => "\x7b" ++ pyReprFields kvs ++ "\x7d"

/-- Comma-joined `repr()`s of list elements. -/
def pyReprList : List Json → String
  | [] => ""
  | [x] => pyRepr x
  | x :: rest => pyRepr x ++ ", " ++ pyReprList rest

/-- Comma-joined `repr()`s of dict entries. -/
def pyReprFields : List (String × Json) → String
  | [] => ""
  | [(k, v)] => "'" ++ k ++ "': " ++ pyRepr v
  | (k, v) :: rest => "'" ++ k ++ "': " ++ pyRepr v ++ ", " ++ pyReprFields rest

end

/-- Python `str()` of a JSON value: like `repr()` but bare for strings. -/
def pyStr : Json → String
  | .str s => s
  | v => pyRepr v

/-- Python `str()` of an optional value (`str(None) = "None"`). -/
def pyStrOpt : Option Json → String
  | some v => pyStr v
  | none => "None"

/-- Python `repr()` of a list of strings (e.g. a strategy universe). -/
def pyReprStrList (xs : List String) : String :=
  "[" ++ String.intercalate ", " (xs.map fun s => "'" ++ s ++ "'") ++ "]"

/-- Split a character list at every occurrence of a separator character
(structural, so the kernel can evaluate it). -/
def splitChar (c : Char) : List Char → List (List Char)
  | [] => [[]]
  | x :: xs =>
      if x = c then [] :: splitChar c xs
      else
        match splitChar c xs with
        | [] => [[x]]
        | g :: gs => (x :: g) :: gs

/-- String split on a single-character separator. -/
def strSplitChar (c : Char) (s : String) : List String :=
  (splitChar c s.data).map (fun l => String.mk l)

/-- Does `needle` occur as a contiguous sublist of `hay`? -/
def listContainsSublist (needle : List Char) : List Char → Bool
  | [] => needle.isEmpty
  | x :: rest => needle.isPrefixOf (x :: rest) || listContainsSublist needle rest

/-- Python `needle in hay` on strings (substring test). -/
def strContainsSub (needle hay : String) : Bool :=
  listContainsSublist needle.data hay.data

/-- Python `key in value` (`in` on a dict tests keys, on a list elements, on
a string substrings; on scalars it raises TypeError). -/
def pyIn (k : String) (j : Json) : Except PyExc Bool :=
  match j with
  | .obj kvs => .ok ((keysOf kvs).contains k)
  | .arr xs => .ok (xs.contains (.str k))
  | .str s => .ok (strContainsSub k s)
  | _ => .error (.typeError "argument is not iterable")

/-- Python `value[key]` with a string key. -/
def pyGetItem (j : Json) (k : String) : Except PyExc Json :=
  match j with
  | .obj kvs =>
      match jlookup kvs k with
      | some v => .ok v
      | none => .error (.keyError k)
  | _ => .error (.typeError "value is not subscriptable with a string")

/-- Python `value.get(key)`: only dicts have `.get`. -/
def pyGet (j : Json) (k : String) : Except PyExc (Option Json) :=
  match j with
  | .obj kvs => .ok (jlookup kvs k)
  | _ => .error (.attributeError "get")

/-! Model of the `jsonschema` library (draft-7 subset), as used by
`_validate_slots_against_schema`. The library's `validate` raises the
best-match `ValidationError` — one error even when several constraints are
violated — or a `RefResolutionError` when a `$ref` cannot be resolved.
The model keeps a deterministic keyword order (`$ref` overriding siblings,
then type, enum, required, minimum, maximum, properties) and supports
external references through a URI store; with no store (the
`common_defs.json` pool missing) an external `$ref` is unresolvable. -/

/-- Walk a JSON-pointer fragment (already split into segments). -/
def jsonPointerWalk (doc : Json) (segs : List String) : Option Json :=
  match segs with
  | [] => some doc
  | s :: rest =>
      match doc with
      | .obj kvs => (jlookup kvs s).bind (fun d => jsonPointerWalk d rest)
      | _ => none

/-- Resolve a `$ref` URI against the schema's own document (fragment-only
refs) or the external store (e.g. `common_defs.schema.json#/$defs/X`). -/
def resolveRefUri (root : Json) (store : Option (List (String × Json)))
    (ref : String) : Except PyExc Json :=
  let parts := strSplitChar '#' ref
  let base := parts.headD ""
  let frag := (parts.drop 1).headD ""
  let segs := (strSplitChar '/' frag).filter (fun s => s ≠ "")
  if base = "" then
    match jsonPointerWalk root segs with
    | some s => .ok s
    | none => .error (.refResolutionError ref)
  else
    match store with
    | none => .error (.refResolutionError ref)
    | some st =>
        match jlookup st base with
        | none => .error (.refResolutionError ref)
        | some doc =>
            match jsonPointerWalk doc segs with
            | some s => .ok s
            | none => .error (.refResolutionError ref)

/-- Does the instance satisfy a draft-7 `type` name? (`bool` is not an
`integer`/`number`, as in the library.) -/
def typeMatches (t : String) (inst : Json) : Bool :=
  match t with
  | "object" => match inst with | .obj _ => true | _ => false
  | "array" => match inst with | .arr _ => true | _ => false
  | "string" => match inst with | .str _ => true | _ => false
  | "integer" => match inst with | .num _ => true | _ => false
  | "number" => match inst with | .num _ => true | _ => false
  | "boolean" => match inst with | .bool _ => true | _ => false
  | "null" => match inst with | .null => true | _ => false
  | _ => true

/-- First missing property from a `required` list, for an object instance. -/
def firstMissingRequired (reqs : List Json) (ikvs : List (String × Json)) :
    Option String :=
  match reqs with
  | [] => none
  | .str r :: rest =>
      if (keysOf ikvs).contains r then firstMissingRequired rest ikvs
      else some r
  | _ :: rest => firstMissingRequired rest ikvs

/-- The guard constraints of one schema level (type, enum, required,
minimum, maximum), each with its pass flag and its library error message. -/
def jsGuards (skvs : List (String × Json)) (inst : Json) : List (Bool × String) :=
  [(match jlookup skvs "type" with
    | some (.str t) =>
        (typeMatches t inst, pyRepr inst ++ " is not of type '" ++ t ++ "'")
    | _ => (true, "")),
   (match jlookup skvs "enum" with
    | some (.arr vs) =>
        (vs.contains inst, pyRepr inst ++ " is not one of " ++ pyRepr (.arr vs))
    | _ => (true, "")),
   (match inst, jlookup skvs "required" with
    | .obj ikvs, some (.arr reqs) =>
        (match firstMissingRequired reqs ikvs with
         | some r => (false, "'" ++ r ++ "' is a required property")
         | none => (true, ""))
    | _, _ => (true, "")),
   (match inst, jlookup skvs "minimum" with
    | .num n, some (.num m) =>
        (decide (m ≤ n), toString n ++ " is less than the minimum of " ++ toString m)
    | _, _ => (true, "")),
   (match inst, jlookup skvs "maximum" with
    | .num n, some (.num m) =>
        (decide (n ≤ m), toString n ++ " is greater than the maximum of " ++ toString m)
    | _, _ => (true, ""))]

/-- Message of the first failing guard, if any (the raise-first-error
behavior of the library). -/
def firstFailing : List (Bool × String) → Option String
  | [] => none
  | (ok, msg) :: rest => if ok then firstFailing rest else some msg

/-- The `$ref` of a schema level, when it is a string (draft-7: a `$ref`
overrides its siblings). -/
def refOf (skvs : List (String × Json)) : Option String :=
  match jlookup skvs "$ref" with
  | some (.str r) => some r
  | _ => none

/-- The `(properties, instance fields)` pair when both the schema level has
a `properties` dict and the instance is an object (the only case in which
draft-7 descends). -/
def propsOf (skvs : List (String × Json)) (inst : Json) :
    Option (List (String × Json) × List (String × Json)) :=
  match inst, jlookup skvs "properties" with
  | .obj ikvs, some (.obj props) => some (props, ikvs)
  | _, _ => none

mutual

/-- The library's `validate`: succeed, or raise the first error found.
`root` is the document `#/...` fragments resolve against. -/
def jsValidate (fuel : Nat) (root : Json) (store : Option (List (String × Json)))
    (schema inst : Json) (path : List String) : Except PyExc Unit :=
  match fuel with
  | 0 => .error .fuelExhausted
  | fuel + 1 =>
      match schema with
      | .bool true => .ok ()
      | .bool false =>
          .error (.validationError path (pyRepr inst ++ " is not allowed"))
      | .obj skvs =>
          match refOf skvs with
          | some ref =>
              match resolveRefUri root store ref with
              | .error e => .error e
              | .ok resolved => jsValidate fuel root store resolved inst path
          | none =>
              match firstFailing (jsGuards skvs inst) with
              | some msg => .error (.validationError path msg)
              | none =>
                  match propsOf skvs inst with
                  | some (props, ikvs) =>
                      jsValidateProps fuel root store props ikvs path
                  | none => .ok ()
      | _ => .ok ()
termination_by structural fuel

/-- Validate an object instance against each schema property in order,
recursing only into properties the instance holds. -/
def jsValidateProps (fuel : Nat) (root : Json) (store : Option (List (String × Json)))
    (props : List (String × Json)) (ikvs : List (String × Json))
    (path : List String) : Except PyExc Unit :=
  match fuel with
  | 0 => .error .fuelExhausted
  | fuel + 1 =>
      match props with
      | [] => .ok ()
      | (pk, psub) :: rest =>
          match (match jlookup ikvs pk with
            | some iv => jsValidate fuel root store psub iv (path ++ [pk])
            | none => .ok ()) with
          | .error e => .error e
          | .ok _ => jsValidateProps fuel root store rest ikvs path
termination_by structural fuel

end

mutual

/-- Declarative counterpart of the validator: evaluate EVERY constraint of
the schema (no first-error shortcut) and report whether all hold. `none`
when a `$ref` cannot be resolved or the fuel runs out. -/
def jsAllValid (fuel : Nat) (root : Json) (store : Option (List (String × Json)))
    (schema inst : Json) : Option Bool :=
  match fuel with
  | 0 => none
  | fuel + 1 =>
      match schema with
      | .bool b => some b
      | .obj skvs =>
          match refOf skvs with
          | some ref =>
              match resolveRefUri root store ref with
              | .error _ => none
              | .ok resolved => jsAllValid fuel root store resolved inst
          | none =>
              let allOk := (jsGuards skvs inst).all (fun g => g.1)
              match propsOf skvs inst with
              | some (props, ikvs) =>
                  match jsAllValidProps fuel root store props ikvs with
                  | some pOk => some (allOk && pOk)
                  | none => none
              | none => some allOk
      | _ => some true
termination_by structural fuel

/-- Per-property conjunction for `jsAllValid`. -/
def jsAllValidProps (fuel : Nat) (root : Json) (store : Option (List (String × Json)))
    (props : List (String × Json)) (ikvs : List (String × Json)) : Option Bool :=
  match fuel with
  | 0 => none
  | fuel + 1 =>
      match props with
      | [] => some true
      | (pk, psub) :: rest =>
          match (match jlookup ikvs pk with
            | some iv => jsAllValid fuel root store psub iv
            | none => some true) with
          | none => none
          | some hOk =>
              match jsAllValidProps fuel root store rest ikvs with
              | none => none
              | some restOk => some (hOk && restOk)
termination_by structural fuel

end

theorem firstFailing_none_iff (gs : List (Bool × String)) :
    firstFailing gs = none ↔ gs.all (fun g => g.1) = true := by
  induction gs with
  | nil => simp [firstFailing]
  | cons g rest ih =>
      obtain ⟨ok, msg⟩ := g
      cases ok <;> simp [firstFailing, ih]

mutual

/-- The first-error validator accepts exactly when every constraint of the
schema holds (soundness and completeness of the shortcutting checker
against the declarative conjunction). -/
theorem jsValidate_ok_iff (fuel : Nat) (root : Json)
    (store : Option (List (String × Json))) (schema inst : Json)
    (path : List String) :
    jsValidate fuel root store schema inst path = .ok () ↔
      jsAllValid fuel root store schema inst = some true := by
  match fuel with
  | 0 => simp [jsValidate, jsAllValid]
  | fuel + 1 =>
      cases schema with
      | bool b => cases b <;> simp [jsValidate, jsAllValid]
      | null => simp [jsValidate, jsAllValid]
      | num n => simp [jsValidate, jsAllValid]
      | str s => simp [jsValidate, jsAllValid]
      | arr xs => simp [jsValidate, jsAllValid]
      | obj skvs =>
          cases href : refOf skvs with
          | some ref =>
              cases hres : resolveRefUri root store ref with
              | error e => simp [jsValidate, jsAllValid, href, hres]
              | ok resolved =>
                  have ih := jsValidate_ok_iff fuel root store resolved inst path
                  simpa [jsValidate, jsAllValid, href, hres] using ih
          | none =>
              cases hff : firstFailing (jsGuards skvs inst) with
              | some msg =>
                  have hall : (jsGuards skvs inst).all (fun g => g.1) = false := by
                    rcases h : (jsGuards skvs inst).all (fun g => g.1) with _ | _
                    · rfl
                    · rw [← firstFailing_none_iff] at h
                      rw [h] at hff
                      cases hff
                  cases hp : propsOf skvs inst with
                  | some pr =>
                      obtain ⟨props, ikvs⟩ := pr
                      cases hav : jsAllValidProps fuel root store props ikvs with
                      | none => simp [jsValidate, jsAllValid, href, hff, hp, hall, hav]
                      | some pOk =>
                          simp [jsValidate, jsAllValid, href, hff, hp, hall, hav]
                  | none => simp [jsValidate, jsAllValid, href, hff, hp, hall]
              | none =>
                  have hall : (jsGuards skvs inst).all (fun g => g.1) = true :=
                    (firstFailing_none_iff _).mp hff
                  cases hp : propsOf skvs inst with
                  | some pr =>
                      obtain ⟨props, ikvs⟩ := pr
                      have ih := jsValidateProps_ok_iff fuel root store props ikvs path
                      cases hav : jsAllValidProps fuel root store props ikvs with
                      | none =>
                          simp [jsValidate, jsAllValid, href, hff, hp, hall, hav] at ih ⊢
                          exact ih
                      | some pOk =>
                          cases pOk <;>
                            simp_all [jsValidate, jsAllValid, href, hff, hp, hall, hav]
                  | none => simp [jsValidate, jsAllValid, href, hff, hp, hall]
termination_by structural fuel

/-- Per-property version of `jsValidate_ok_iff`. -/
theorem jsValidateProps_ok_iff (fuel : Nat) (root : Json)
    (store : Option (List (String × Json))) (props ikvs : List (String × Json))
    (path : List String) :
    jsValidateProps fuel root store props ikvs path = .ok () ↔
      jsAllValidProps fuel root store props ikvs = some true := by
  match fuel with
  | 0 => simp [jsValidateProps, jsAllValidProps]
  | fuel + 1 =>
      match props with
      | [] => simp [jsValidateProps, jsAllValidProps]
      | (pk, psub) :: rest =>
          have ihRest := jsValidateProps_ok_iff fuel root store rest ikvs path
          cases hl : jlookup ikvs pk with
          | some iv =>
              have ihHead := jsValidate_ok_iff fuel root store psub iv (path ++ [pk])
              cases hv : jsValidate fuel root store psub iv (path ++ [pk]) with
              | error e =>
                  have hne : jsAllValid fuel root store psub iv ≠ some true := by
                    intro hcon
                    rw [← ihHead] at hcon
                    rw [hv] at hcon
                    cases hcon
                  cases hav : jsAllValid fuel root store psub iv with
                  | none => simp [jsValidateProps, jsAllValidProps, hl, hv, hav]
                  | some b =>
                      have hb : b = false := by
                        cases b
                        · rfl
                        · exact absurd hav hne
                      subst hb
                      cases havr : jsAllValidProps fuel root store rest ikvs with
                      | none => simp [jsValidateProps, jsAllValidProps, hl, hv, hav, havr]
                      | some rOk =>
                          simp [jsValidateProps, jsAllValidProps, hl, hv, hav, havr]
              | ok u =>
                  obtain ⟨⟩ := u
                  have hav : jsAllValid fuel root store psub iv = some true := ihHead.mp hv
                  cases havr : jsAllValidProps fuel root store rest ikvs with
                  | none =>
                      simp [jsValidateProps, jsAllValidProps, hl, hv, hav, havr] at ihRest ⊢
                      exact ihRest
                  | some rOk =>
                      cases rOk <;>
                        simp_all [jsValidateProps, jsAllValidProps, hl, hv, hav, havr]
          | none =>
              cases havr : jsAllValidProps fuel root store rest ikvs with
              | none =>
                  simp [jsValidateProps, jsAllValidProps, hl, havr] at ihRest ⊢
                  exact ihRest
              | some rOk =>
                  cases rOk <;> simp_all [jsValidateProps, jsAllValidProps, hl, havr]
termination_by structural fuel

end

/-- Fuel used for every call of the validator model: deep enough for any
schema the repository ships. -/
def valFuel : Nat := 1000

/-- The hint-lookup walk of `_validate_slots_against_schema` (lines
172-179): descend the schema through `properties` along the error's path,
stopping at the first level that has no `properties` dict. Returns the
schema found there, or the raise the descent would produce when a
`properties` value is not a dict. -/
def hintSchemaWalk (schema : Json) (segs : List String) : Except PyExc Json :=
  match segs with
  | [] => .ok schema
  | seg :: rest =>
      match schema with
      | .obj skvs =>
          match jlookup skvs "properties" with
          | some (.obj props) =>
              hintSchemaWalk (match jlookup props seg with
                | some s => s
                | none => .obj []) rest
          | some _ => .error (.attributeError "get")
          | none => .ok schema
      | _ => .ok schema

/-- Message construction of `_validate_slots_against_schema` (lines
168-195): dotted path (or `root`), the library message, then parenthesized
`enum` / `minimum` / `maximum` hints found at that point of the schema. -/
def formatValidationError (schema : Json) (apath : List String) (msg : String) :
    Except PyExc String := do
  let pathStr := if apath.isEmpty then "root" else String.intercalate "." apath
  let baseMsg := "Validation error at '" ++ pathStr ++ "': " ++ msg
  if apath.isEmpty then
    return baseMsg
  else
    let propSchema ← hintSchemaWalk schema apath
    match propSchema with
    | .obj pkvs =>
        let withEnum :=
          match jlookup pkvs "enum" with
          | some ev => baseMsg ++ " (must be one of: " ++ pyRepr ev ++ ")"
          | none => baseMsg
        let minVal := match jlookup pkvs "minimum" with
          | some .null => none
          | v => v
        let maxVal := match jlookup pkvs "maximum" with
          | some .null => none
          | v => v
        match minVal, maxVal with
        | some mn, some mx =>
            return withEnum ++ " (must be between " ++ pyStr mn ++ " and " ++
              pyStr mx ++ ")"
        | some mn, none =>
            return withEnum ++ " (must be >= " ++ pyStr mn ++ ")"
        | none, some mx =>
            return withEnum ++ " (must be <= " ++ pyStr mx ++ ")"
        | none, none => return withEnum
    | _ => return baseMsg

/-- The resolver store built from the common-definitions pool: the Python
code maps the URI `common_defs.schema.json` to the loaded JSON, and builds
no resolver at all when the file is missing. -/
def commonStore (commonDefs : Option Json) : Option (List (String × Json)) :=
  match commonDefs with
  | some defs => some [("common_defs.schema.json", defs)]
  | none => none

/-- Embedding of `_validate_slots_against_schema` (src/tools/card_tools.py,
lines 121-197). `commonDefs` stands for the `data/common_defs.json` file:
`none` when the file is missing. The Python code catches only
`jsonschema.ValidationError`; a `RefResolutionError` (and any other
exception) propagates to the caller, which this embedding renders as
`Except.error`. -/
def validateSlotsAgainstSchema (commonDefs : Option Json) (slots schema : Json) :
    Except PyExc (List String) :=
  match jsValidate valFuel schema (commonStore commonDefs) schema slots [] with
  | .ok _ => .ok []
  | .error (.validationError apath msg) =>
      match formatValidationError schema apath msg with
      | .ok m => .ok [m]
      | .error e => .error e
  | .error e => .error e

/-! Domain models (src/models/strategy.py, src/models/card.py,
src/models/archetype_schema.py). Timestamps are strings, as in the source
(ISO-8601 rendered by `now_iso`). -/

/-- `SchemaConstraints` (src/models/archetype_schema.py). -/
structure SchemaConstraints where
  min_history_bars : Option Int := none
  pit_safe : Option Bool := none
  warmup_hint : Option String := none
deriving DecidableEq

/-- `ArchetypeSchema` (src/models/archetype_schema.py); examples are
`(human, slots)` pairs. -/
structure ArchetypeSchema where
  type_id : String
  schema_version : Int := 1
  etag : String
  json_schema : Json
  constraints : SchemaConstraints := {}
  slot_hints : Json := .obj []
  examples : List (String × Json) := []
  notes : List String := []
  updated_at : String := ""
deriving DecidableEq

/-- `Card` (src/models/card.py). -/
structure Card where
  id : String
  type : String
  slots : List (String × Json)
  schema_etag : String
  created_at : String
  updated_at : String
deriving DecidableEq

/-- `Attachment` (src/models/strategy.py): note that the model has no
`order` field (and `Strategy.from_dict` strips a legacy `order` key). -/
structure Attachment where
  card_id : String
  role : String
  enabled : Bool := true
  overrides : List (String × Json) := []
  follow_latest : Bool := false
  card_revision_id : Option String := none
deriving DecidableEq

/-- `Strategy` (src/models/strategy.py). `univ` is the source's `universe`
field (`universe` is a Lean keyword). -/
structure Strategy where
  id : String
  owner_id : Option String := none
  name : String
  status : String := "draft"
  univ : List String := []
  attachments : List Attachment := []
  version : Int := 1
  created_at : String
  updated_at : String
deriving DecidableEq

/-- `Issue` (src/tools/strategy_tools.py). -/
structure Issue where
  severity : String
  code : String
  message : String
  path : Option String := none
deriving DecidableEq

/-- `CompiledCard` (src/tools/strategy_tools.py). -/
structure CompiledCard where
  role : String
  card_id : String
  card_revision_id : Option String := none
  type : String
  effective_slots : List (String × Json)
  compiled_condition : Option Json := none
  execution_spec : Option Json := none
  sizing_spec : Option Json := none
deriving DecidableEq

/-- Exact fraction representing the Python float arithmetic of the
`tf_to_hours` table (whose entries are `1/60`, `5/60`, ..., `24`); kept
unnormalized so the kernel can evaluate it. -/
structure PyFloat where
  num : Int
  den : Int
deriving DecidableEq

/-- The rational a `PyFloat` denotes. -/
def PyFloat.toRat (f : PyFloat) : Rat := (f.num : Rat) / (f.den : Rat)

/-- An integer times a fraction (`min_bars * hours_per_bar`). -/
def pyMulIntFloat (n : Int) (f : PyFloat) : PyFloat := ⟨n * f.num, f.den⟩

/-- `DataRequirement` (src/tools/strategy_tools.py). The symbol and
timeframe come out of the slot tree, so they are JSON values; hours are
exact fractions. -/
structure DataRequirement where
  symbol : Json
  tf : Json
  min_bars : Int
  lookback_hours : PyFloat
deriving DecidableEq

/-- `CompiledStrategy` (src/tools/strategy_tools.py); `univ` is the
source's `universe` field. -/
structure CompiledStrategy where
  strategy_id : String
  univ : List String
  cards : List CompiledCard
  data_requirements : List DataRequirement
deriving DecidableEq

/-- The `validation_summary` dict of `CompileStrategyResponse`. -/
structure ValidationSummary where
  errors : Nat
  warnings : Nat
  cards_validated : Nat
deriving DecidableEq

/-- `CompileStrategyResponse` (src/tools/strategy_tools.py), also the
return shape of `validate_strategy`. -/
structure CompileStrategyResponse where
  status_hint : String
  compiled : Option CompiledStrategy := none
  issues : List Issue
  validation_summary : ValidationSummary
deriving DecidableEq

/-! Sub-spec extractors (src/tools/strategy_tools.py, lines 29-86). -/

/-- Shared body of the two condition checks of
`_extract_and_compile_condition`: inspect `event[key]`; a dict with a
`type` field is returned verbatim, a dict with a `metric` field is wrapped
as a regime condition, anything else yields nothing. -/
def extractFromEventKey (event : Json) (key : String) : Except PyExc (Option Json) :=
  match pyIn key event with
  | .error e => .error e
  | .ok hasKey =>
      if hasKey then
        match pyGetItem event key with
        | .error e => .error e
        | .ok condition =>
            match condition with
            | .obj ckvs =>
                if (keysOf ckvs).contains "type" then
                  .ok (some condition)
                else if (keysOf ckvs).contains "metric" then
                  .ok (some (.obj [("type", .str "regime"), ("regime", condition)]))
                else
                  .ok none
            | _ => .ok none
      else
        .ok none

/-- `_extract_and_compile_condition`: `event.condition` first, then
`event.regime`, each with the verbatim/wrap cases. -/
def extractAndCompileCondition (effectiveSlots : List (String × Json)) :
    Except PyExc (Option Json) :=
  match jlookup effectiveSlots "event" with
  | some event =>
      match extractFromEventKey event "condition" with
      | .error e => .error e
      | .ok (some c) => .ok (some c)
      | .ok none =>
          match extractFromEventKey event "regime" with
          | .error e => .error e
          | .ok (some c) => .ok (some c)
          | .ok none => .ok none
  | none => .ok none

/-- `_extract_execution_spec`: `action.execution` if present. -/
def extractExecutionSpec (effectiveSlots : List (String × Json)) :
    Except PyExc (Option Json) :=
  match jlookup effectiveSlots "action" with
  | some action =>
      match pyIn "execution" action with
      | .error e => .error e
      | .ok hasKey =>
          if hasKey then
            match pyGetItem action "execution" with
            | .error e => .error e
            | .ok v => .ok (some v)
          else
            .ok none
  | none => .ok none

/-- `_extract_sizing_spec`: `action.sizing` if present. -/
def extractSizingSpec (effectiveSlots : List (String × Json)) :
    Except PyExc (Option Json) :=
  match jlookup effectiveSlots "action" with
  | some action =>
      match pyIn "sizing" action with
      | .error e => .error e
      | .ok hasKey =>
          if hasKey then
            match pyGetItem action "sizing" with
            | .error e => .error e
            | .ok v => .ok (some v)
          else
            .ok none
  | none => .ok none

/-! The compiler (src/tools/strategy_tools.py, `compile_strategy` lines
882-1227 and `validate_strategy` lines 595-880). Repositories are read-only
during compilation, so they are lookup functions; `commonDefs` stands for
the `data/common_defs.json` file read by the slot validator. -/

/-- The stores the two pipelines read. -/
structure Env where
  strategies : String → Option Strategy
  cards : String → Option Card
  schemas : String → Option ArchetypeSchema
  commonDefs : Option Json := none

/-- Mutable state of the per-attachment loop: the issue list, the compiled
cards, and the `(symbol, tf) -> min_bars` dict in insertion order. -/
structure LoopState where
  issues : List Issue := []
  compiledCards : List CompiledCard := []
  dataReq : List ((Json × Json) × Int) := []
deriving DecidableEq

/-- Lookup in the data-requirements dict. -/
def drLookup (m : List ((Json × Json) × Int)) (key : Json × Json) : Option Int :=
  match m with
  | [] => none
  | (k, v) :: rest => if k = key then some v else drLookup rest key

/-- In-place update of the data-requirements dict (Python dict assignment:
replace at the first occurrence, else append). -/
def drSet (m : List ((Json × Json) × Int)) (key : Json × Json) (v : Int) :
    List ((Json × Json) × Int) :=
  match m with
  | [] => [(key, v)]
  | (k, v') :: rest => if k = key then (k, v) :: rest else (k, v') :: drSet rest key v

/-- `if key not in map or min_bars > map[key]: map[key] = min_bars`. -/
def updateDataReq (m : List ((Json × Json) × Int)) (key : Json × Json)
    (minBars : Int) : List ((Json × Json) × Int) :=
  match drLookup m key with
  | none => drSet m key minBars
  | some cur => if minBars > cur then drSet m key minBars else m

/-- The Python `or` for optional integers:
`schema.constraints.min_history_bars or 100` (both `None` and `0` fall back). -/
def pyOrInt (o : Option Int) (d : Int) : Int :=
  match o with
  | some n => if n = 0 then d else n
  | none => d

/-- Python truthiness of a `.get` result (`None` falsy). -/
def truthyOpt : Option Json → Bool
  | some v => v.truthy
  | none => false

/-- The outcome of the shared loop body for one attachment: either it
`continue`s after appending issues, or it compiles the card and folds one
`(symbol, tf) -> min_bars` contribution into the data-requirements dict. -/
inductive ProcOutcome where
  | skip : List Issue → ProcOutcome
  | compiledOk : CompiledCard → (Json × Json) → Int → ProcOutcome
deriving DecidableEq

/-- `effective_slots = card.slots` or `deep_merge(card.slots, overrides)`
(compile lines 971-988). -/
def effSlotsOf (att : Attachment) (card : Card) : List (String × Json) :=
  if att.overrides.isEmpty then card.slots
  else deepMerge card.slots att.overrides

/-- The context extraction shared by both pipelines
(`effective_slots.get("context", {})` followed by `.get("symbol")` /
`.get("tf")`, with the exceptions a non-dict context raises). -/
def contextSymbolTf (es : List (String × Json)) :
    Except PyExc (Option Json × Option Json) :=
  match jlookup es "context" with
  | some context =>
      match pyGet context "symbol" with
      | .error e => .error e
      | .ok s =>
          match pyGet context "tf" with
          | .error e => .error e
          | .ok t => .ok (s, t)
  | none => .ok (none, none)

/-- The st-independent computation of the shared loop body (the body only
ever appends to the accumulators, so it splits off cleanly): merge
overrides, fetch the schema, re-validate, extract the context, compute the
data-requirement contribution, extract the sub-specs and build the
`CompiledCard` with the given `rev`. -/
def processResolvedCore (env : Env) (att : Attachment) (card : Card)
    (rev : Option String) : Except PyExc ProcOutcome :=
  let effectiveSlots := effSlotsOf att card
  match env.schemas card.type with
  | none =>
      .ok (.skip [
        { severity := "error", code := "SCHEMA_NOT_FOUND",
          message := "Schema for archetype " ++ card.type ++ " not found",
          path := some ("attachments[" ++ att.card_id ++ "].type") }])
  | some schema =>
      match validateSlotsAgainstSchema env.commonDefs (.obj effectiveSlots)
          schema.json_schema with
      | .error e => .error e
      | .ok validationErrors =>
          if !validationErrors.isEmpty then
            .ok (.skip (validationErrors.map (fun errorMsg =>
              { severity := "error", code := "SLOT_VALIDATION_ERROR",
                message := "Effective slots for card '" ++ att.card_id ++ "' (type '" ++
                  card.type ++ "') failed schema validation: " ++ errorMsg,
                path := some ("attachments[" ++ att.card_id ++ "].effective_slots") })))
          else
            match contextSymbolTf effectiveSlots with
            | .error e => .error e
            | .ok (symbol, tf) =>
                if !truthyOpt symbol || !truthyOpt tf then
                  .ok (.skip [
                    { severity := "error", code := "MISSING_CONTEXT",
                      message := "Card " ++ att.card_id ++ " missing symbol or tf in context",
                      path := some ("attachments[" ++ att.card_id ++
                        "].effective_slots.context") }])
                else
                  let sv := symbol.getD .null
                  let tv := tf.getD .null
                  let minBars := pyOrInt schema.constraints.min_history_bars 100
                  match extractAndCompileCondition effectiveSlots with
                  | .error e => .error e
                  | .ok compiledCondition =>
                      match extractExecutionSpec effectiveSlots with
                      | .error e => .error e
                      | .ok executionSpec =>
                          match extractSizingSpec effectiveSlots with
                          | .error e => .error e
                          | .ok sizingSpec =>
                              .ok (.compiledOk
                                { role := att.role
                                  card_id := att.card_id
                                  card_revision_id := rev
                                  type := card.type
                                  effective_slots := effectiveSlots
                                  compiled_condition := compiledCondition
                                  execution_spec := executionSpec
                                  sizing_spec := sizingSpec }
                                (sv, tv) minBars)

/-- The part of the attachment loop both pipelines share verbatim (compile
lines 971-1063, validate lines 670-762): apply the outcome of
`processResolvedCore` to the loop state. -/
def processResolvedCard (env : Env) (att : Attachment) (card : Card)
    (rev : Option String) (st : LoopState) : Except PyExc LoopState :=
  match processResolvedCore env att card rev with
  | .error e => .error e
  | .ok (.skip issues) => .ok { st with issues := st.issues ++ issues }
  | .ok (.compiledOk c key minBars) =>
      .ok { st with
        compiledCards := st.compiledCards ++ [c]
        dataReq := updateDataReq st.dataReq key minBars }

/-- A compiled card with its `card_revision_id` forgotten: the only field
in which the two pipelines' compiled cards can differ. -/
def maskCard (c : CompiledCard) : CompiledCard := { c with card_revision_id := none }

/-- The `(symbol, tf)` key a compiled card contributed to the
data-requirements dict, recomputed from its effective slots. -/
def cardSymbolTf (c : CompiledCard) : Json × Json :=
  match contextSymbolTf c.effective_slots with
  | .ok (some s, some t) => (s, t)
  | _ => (.null, .null)

/-- The `min_bars` a compiled card contributed: its schema's
`min_history_bars or 100`. -/
def cardMinBars (env : Env) (c : CompiledCard) : Int :=
  match env.schemas c.type with
  | some schema => pyOrInt schema.constraints.min_history_bars 100
  | none => 100

/-- The `CARD_REVISION_NOT_FOUND` issue of `validate_strategy`. -/
def revisionIssue (att : Attachment) : Issue :=
  { severity := "error", code := "CARD_REVISION_NOT_FOUND",
    message := "Pinned card revision for card '" ++ att.card_id ++ "' (revision '" ++
      (match att.card_revision_id with | some s => s | none => "None") ++
      "') not found or does not match current card's updated_at.",
    path := some ("attachments[" ++ att.card_id ++ "]") }

/-- One iteration of `compile_strategy`'s attachment loop (lines 936-1063):
disabled attachments are skipped; a missing card yields `CARD_NOT_FOUND`;
for a pinned attachment the stored `card_revision_id` is carried over
without comparing it to the card's `updated_at` (the source's MVP comment). -/
def compileAttachment (env : Env) (st : LoopState) (att : Attachment) :
    Except PyExc LoopState :=
  if !att.enabled then .ok st
  else if att.follow_latest then
    match env.cards att.card_id with
    | none => .ok { st with issues := st.issues ++ [
        { severity := "error", code := "CARD_NOT_FOUND",
          message := "Card " ++ att.card_id ++ " not found (follow_latest=true)",
          path := some ("attachments[" ++ att.card_id ++ "]") }] }
    | some card => processResolvedCard env att card (some card.updated_at) st
  else
    match env.cards att.card_id with
    | none => .ok { st with issues := st.issues ++ [
        { severity := "error", code := "CARD_NOT_FOUND",
          message := "Card " ++ att.card_id ++ " not found",
          path := some ("attachments[" ++ att.card_id ++ "]") }] }
    | some card => processResolvedCard env att card att.card_revision_id st

/-- One iteration of `validate_strategy`'s attachment loop (lines 638-762):
no enabled check; a pinned attachment is accepted only when the card exists
and its `updated_at` equals the pinned revision, otherwise
`CARD_REVISION_NOT_FOUND`; for `follow_latest` the recorded revision stays
`None`. -/
def validateAttachment (env : Env) (st : LoopState) (att : Attachment) :
    Except PyExc LoopState :=
  if att.follow_latest then
    match env.cards att.card_id with
    | none => .ok { st with issues := st.issues ++ [
        { severity := "error", code := "CARD_NOT_FOUND",
          message := "Attached card '" ++ att.card_id ++ "' not found.",
          path := some ("attachments[" ++ att.card_id ++ "]") }] }
    | some card => processResolvedCard env att card none st
  else
    match env.cards att.card_id with
    | some card =>
        if att.card_revision_id = some card.updated_at then
          processResolvedCard env att card att.card_revision_id st
        else .ok { st with issues := st.issues ++ [revisionIssue att] }
    | none => .ok { st with issues := st.issues ++ [revisionIssue att] }

/-- Composition checks shared verbatim by both pipelines (compile lines
1076-1108, validate lines 764-796). -/
def compositionIssues (compiledCards : List CompiledCard) : List Issue :=
  let entryCount := (compiledCards.filter (fun c => c.role = "entry")).length
  let exitCount := (compiledCards.filter (fun c => c.role = "exit")).length
  (if entryCount = 0 then [
    { severity := "error", code := "NO_ENTRIES",
      message := "Strategy has no entry cards attached",
      path := some "attachments" }] else []) ++
  (if exitCount = 0 then [
    { severity := "warning", code := "NO_EXITS",
      message := "Strategy has no exit cards attached (positions may not close automatically)",
      path := some "attachments" }] else []) ++
  (if exitCount > 1 then [
    { severity := "warning", code := "MULTIPLE_EXITS",
      message := "Strategy has " ++ toString exitCount ++ " exit cards (may cause conflicts)",
      path := some "attachments" }] else [])

/-- Python set insertion (dedup, first-insertion order kept for the model). -/
def insertSet (xs : List Json) (x : Json) : List Json :=
  if xs.contains x then xs else xs ++ [x]

/-- String comparison for `sorted(...)` over traded symbols. -/
def jsonStrLe (a b : Json) : Bool :=
  decide (pyStr a < pyStr b) || (pyStr a == pyStr b)

/-- Insertion into a sorted list (for the model of `sorted(...)`). -/
def insertSorted (x : Json) : List Json → List Json
  | [] => [x]
  | y :: ys => if jsonStrLe x y then x :: y :: ys else y :: insertSorted x ys

/-- `sorted(traded_symbols)`: insertion sort by string order (the traded
symbols are strings whenever the message is built without a Python
TypeError, which the claims' hypotheses ensure). -/
def pySorted : List Json → List Json
  | [] => []
  | x :: xs => insertSorted x (pySorted xs)

/-- Per-entry-card body of the single-asset loop (compile lines 1112-1141):
the traded symbol (the follower symbol for `entry.intermarket_trigger`
cards carrying `event.lead_follow`) and the possible
`MVP_SINGLE_ASSET_VIOLATION` issue. -/
def mvpProcessCard (c : CompiledCard) : Except PyExc (Option Json × Option Issue) :=
  match (match jlookup c.effective_slots "context" with
    | some context => pyGet context "symbol"
    | none => .ok none) with
  | .error e => .error e
  | .ok symbol =>
      if c.type = "entry.intermarket_trigger" then
        match jlookup c.effective_slots "event" with
        | some event =>
            match pyIn "lead_follow" event with
            | .error e => .error e
            | .ok hasLF =>
                if hasLF then
                  match pyGetItem event "lead_follow" with
                  | .error e => .error e
                  | .ok leadFollow =>
                      match pyGet leadFollow "follower_symbol" with
                      | .error e => .error e
                      | .ok follower =>
                          let issue : Option Issue :=
                            if symbol ≠ follower then
                              some { severity := "error"
                                     code := "MVP_SINGLE_ASSET_VIOLATION"
                                     message := "entry.intermarket_trigger requires context.symbol (" ++
                                       pyStrOpt symbol ++ ") to equal event.lead_follow.follower_symbol (" ++
                                       pyStrOpt follower ++ "). Leader symbols are observation-only."
                                     path := some ("attachments[" ++ c.card_id ++ "].effective_slots") }
                            else none
                          .ok (follower, issue)
                else
                  .ok (symbol, none)
        | none => .ok (symbol, none)
      else
        .ok (symbol, none)

/-- The single-asset collection loop: traded symbols (a set) and the
violation issues, in card order. -/
def mvpCollect (acc : List Json × List Issue) (cards : List CompiledCard) :
    Except PyExc (List Json × List Issue) :=
  match cards with
  | [] => .ok acc
  | c :: rest =>
      if c.role = "entry" then
        match mvpProcessCard c with
        | .error e => .error e
        | .ok (symbol, issue) =>
            let issues := acc.2 ++ (match issue with | some i => [i] | none => [])
            let traded :=
              if truthyOpt symbol then insertSet acc.1 (symbol.getD .null) else acc.1
            mvpCollect (traded, issues) rest
      else
        mvpCollect acc rest

/-- Whether the traded symbol occurs in the universe
(`traded_symbol not in strategy.univ`; a non-string value never
equals a universe string). -/
def tradedInUniverse (t : Json) (universeSyms : List String) : Bool :=
  match t with
  | .str s => universeSyms.contains s
  | _ => false

/-- The single-asset (MVP) checks shared verbatim by both pipelines
(compile lines 1110-1173, validate lines 798-861). -/
def mvpIssues (strategy : Strategy) (cards : List CompiledCard) :
    Except PyExc (List Issue) :=
  match mvpCollect ([], []) cards with
  | .error e => .error e
  | .ok (traded, issues) =>
      if traded.length > 1 then
        .ok (issues ++ [
          { severity := "error", code := "MVP_MULTIPLE_ASSETS",
            message := "MVP constraint violation: Strategy trades multiple assets " ++
              pyRepr (.arr (pySorted traded)) ++
              ". MVP requires single-asset trading. Use entry.intermarket_trigger for observation-only triggers from other symbols.",
            path := some "attachments" }])
      else if traded.length = 1 then
        let tradedSymbol := traded.headD .null
        if !strategy.univ.isEmpty && strategy.univ.length > 1 then
          .ok (issues ++ [
            { severity := "error", code := "MVP_UNIVERSE_MISMATCH",
              message := "Strategy universe " ++ pyReprStrList strategy.univ ++
                " contains multiple symbols, but only " ++ pyStr tradedSymbol ++
                " is traded. MVP requires single-asset strategies.",
              path := some "universe" }])
        else if !strategy.univ.isEmpty && !tradedInUniverse tradedSymbol strategy.univ then
          .ok (issues ++ [
            { severity := "error", code := "MVP_UNIVERSE_MISMATCH",
              message := "Traded symbol " ++ pyStr tradedSymbol ++
                " not in strategy universe " ++ pyReprStrList strategy.univ,
              path := some "universe" }])
        else
          .ok issues
      else
        .ok issues

/-- The `tf_to_hours` table (compile lines 1178-1185), with the
`.get(tf, 1)` default for unknown timeframes. -/
def tfToHours (tf : Json) : PyFloat :=
  match tf with
  | .str "1m" => ⟨1, 60⟩
  | .str "5m" => ⟨5, 60⟩
  | .str "15m" => ⟨15, 60⟩
  | .str "1h" => ⟨1, 1⟩
  | .str "4h" => ⟨4, 1⟩
  | .str "1d" => ⟨24, 1⟩
  | _ => ⟨1, 1⟩

/-- Data-requirement flattening (compile lines 1176-1197). -/
def flattenDataReqs (m : List ((Json × Json) × Int)) : List DataRequirement :=
  m.map (fun e =>
    { symbol := e.1.1, tf := e.1.2, min_bars := e.2,
      lookback_hours := pyMulIntFloat e.2 (tfToHours e.1.2) })

/-- The `EMPTY_UNIVERSE` issue (compile lines 1066-1074; absent from
`validate_strategy`). -/
def emptyUniverseIssue : Issue :=
  { severity := "error", code := "EMPTY_UNIVERSE",
    message := "Strategy has no symbols in universe. Set universe via update_strategy_meta before compilation.",
    path := some "universe" }

/-- The attachment loop driver: thread the loop state through the
attachments, propagating any raised exception. -/
def runAttachments (step : LoopState → Attachment → Except PyExc LoopState)
    (st : LoopState) (atts : List Attachment) : Except PyExc LoopState :=
  match atts with
  | [] => .ok st
  | att :: rest =>
      match step st att with
      | .error e => .error e
      | .ok st' => runAttachments step st' rest

/-- Embedding of `compile_strategy` (src/tools/strategy_tools.py, lines
882-1227). -/
def compileStrategy (env : Env) (strategyId : String) :
    Except PyExc CompileStrategyResponse :=
  match env.strategies strategyId with
  | none => .error (.structuredToolError "STRATEGY_NOT_FOUND"
      ("Strategy not found: " ++ strategyId))
  | some strategy =>
      match runAttachments (compileAttachment env) {} strategy.attachments with
      | .error e => .error e
      | .ok st =>
          match mvpIssues strategy st.compiledCards with
          | .error e => .error e
          | .ok mvp =>
              let issues₁ := st.issues ++
                (if strategy.univ.isEmpty then [emptyUniverseIssue] else [])
              let issues₂ := issues₁ ++ compositionIssues st.compiledCards
              let issues := issues₂ ++ mvp
              let dataRequirements := flattenDataReqs st.dataReq
              let errorCount := (issues.filter (fun i => i.severity = "error")).length
              let statusHint := if errorCount = 0 then "ready" else "fix_required"
              let compiled : Option CompiledStrategy :=
                if statusHint = "ready" then
                  some { strategy_id := strategy.id, univ := strategy.univ,
                         cards := st.compiledCards,
                         data_requirements := dataRequirements }
                else none
              let warningCount :=
                (issues.filter (fun i => i.severity = "warning")).length
              let summary : ValidationSummary :=
                { errors := errorCount
                  warnings := warningCount
                  cards_validated := st.compiledCards.length }
              .ok { status_hint := statusHint
                    compiled := compiled
                    issues := issues
                    validation_summary := summary }

/-- Embedding of `validate_strategy` (src/tools/strategy_tools.py, lines
595-880): same pipeline, but no enabled skip, the pin check in the pinned
branch, no `EMPTY_UNIVERSE` check, and `compiled` always `None`. -/
def validateStrategy (env : Env) (strategyId : String) :
    Except PyExc CompileStrategyResponse :=
  match env.strategies strategyId with
  | none => .error (.structuredToolError "STRATEGY_NOT_FOUND"
      ("Strategy not found: " ++ strategyId))
  | some strategy =>
      match runAttachments (validateAttachment env) {} strategy.attachments with
      | .error e => .error e
      | .ok st =>
          match mvpIssues strategy st.compiledCards with
          | .error e => .error e
          | .ok mvp =>
              let issues₂ := st.issues ++ compositionIssues st.compiledCards
              let issues := issues₂ ++ mvp
              let errorCount := (issues.filter (fun i => i.severity = "error")).length
              let statusHint := if errorCount = 0 then "ready" else "fix_required"
              let warningCount :=
                (issues.filter (fun i => i.severity = "warning")).length
              let summary : ValidationSummary :=
                { errors := errorCount
                  warnings := warningCount
                  cards_validated := st.compiledCards.length }
              .ok { status_hint := statusHint
                    compiled := none
                    issues := issues
                    validation_summary := summary }

/-! `StrategyRepository.update` (src/db/strategy_repository.py, lines
86-114) and `update_strategy_meta` (src/tools/strategy_tools.py, lines
330-395). The Firestore collection is an association list keyed by document
id; the wall clock (`Strategy.now_iso()`) is the explicit `now` argument. -/

/-- Lookup in a string-keyed store. -/
def slookup {α : Type} (xs : List (String × α)) (k : String) : Option α :=
  match xs with
  | [] => none
  | (k', v) :: rest => if k' = k then some v else slookup rest k

/-- Write into a string-keyed store (replace at the key, else append). -/
def sset {α : Type} (xs : List (String × α)) (k : String) (v : α) :
    List (String × α) :=
  match xs with
  | [] => [(k, v)]
  | (k', v') :: rest => if k' = k then (k', v) :: rest else (k', v') :: sset rest k v

/-- The strategies collection. -/
abbrev StratStore := List (String × Strategy)

/-- `StrategyRepository.update`: require an id, require the document to
exist, stamp `updated_at = now` and `version = existing.version + 1`, then
write the document back. -/
def repoUpdateStrategy (store : StratStore) (now : String) (strategy : Strategy) :
    Except PyExc (StratStore × Strategy) :=
  if strategy.id = "" then
    .error (.valueError "Strategy ID is required for update")
  else
    match slookup store strategy.id with
    | none => .error (.valueError ("Strategy not found: " ++ strategy.id))
    | some existing =>
        let updated := { strategy with
          updated_at := now
          version := existing.version + 1 }
        .ok (sset store strategy.id updated, updated)

/-- `VALID_STATUSES` (src/tools/strategy_tools.py, line 26). -/
def VALID_STATUSES : List String :=
  ["draft", "ready", "running", "paused", "stopped", "error"]

/-- `UpdateStrategyMetaResponse` (src/tools/strategy_tools.py); `univ` is
the source's `universe` field. -/
structure UpdateStrategyMetaResponse where
  strategy_id : String
  name : String
  status : String
  univ : List String
  version : Int
  updated_at : String
deriving DecidableEq

/-- The field updates of `update_strategy_meta` (lines 378-384): each of
name, status and universe overwrites the fetched strategy only when
provided. -/
def applyMetaUpdates (strategy : Strategy) (name status : Option String)
    (universeArg : Option (List String)) : Strategy :=
  let strategy₁ := match name with
    | some n => { strategy with name := n }
    | none => strategy
  let strategy₂ := match status with
    | some s => { strategy₁ with status := s }
    | none => strategy₁
  match universeArg with
  | some u => { strategy₂ with univ := u }
  | none => strategy₂

/-- Embedding of `update_strategy_meta`: fetch, validate the status, apply
only the provided fields, and run the repository update. Returns the new
store alongside the response. -/
def updateStrategyMeta (store : StratStore) (now : String) (strategyId : String)
    (name : Option String) (status : Option String) (universeArg : Option (List String)) :
    Except PyExc (StratStore × UpdateStrategyMetaResponse) :=
  match slookup store strategyId with
  | none => .error (.structuredToolError "STRATEGY_NOT_FOUND"
      ("Strategy not found: " ++ strategyId))
  | some strategy =>
      if (match status with
          | some s => !(VALID_STATUSES.contains s)
          | none => false) then
        .error (.structuredToolError "INVALID_STATUS"
          ("Invalid status: " ++ (status.getD "")))
      else
        match repoUpdateStrategy store now
            (applyMetaUpdates strategy name status universeArg) with
        | .error e => .error e
        | .ok (store', updated) =>
            .ok (store', {
              strategy_id := updated.id
              name := updated.name
              status := updated.status
              univ := updated.univ
              version := updated.version
              updated_at := updated.updated_at })

/-! `get_archetype_schema` (src/tools/trading_tools.py, lines 323-402). -/

/-- `GetArchetypeSchemaResponse` (src/tools/trading_tools.py). -/
structure GetArchetypeSchemaResponse where
  type_id : String
  schema_version : Int
  etag : String
  json_schema : Json
  constraints : SchemaConstraints
  slot_hints : Json
  examples : List (String × Json)
  updated_at : String
deriving DecidableEq

/-- Embedding of `get_archetype_schema`. `resolveRefs` stands for
`_resolve_schema_references`, which reads `data/common_defs.json` from disk
and rewrites the schema document; it takes only the schema, never the
conditional-request header. The `if if_none_match and if_none_match ==
schema.etag:` branch of the source is a `pass` and is transcribed as such:
`ifNoneMatch` is accepted and then unused. -/
def getArchetypeSchema (resolveRefs : Json → Json)
    (schemas : String → Option ArchetypeSchema) (type : String)
    (ifNoneMatch : Option String) : Except PyExc GetArchetypeSchemaResponse :=
  match schemas type with
  | none => .error (.structuredToolError "ARCHETYPE_NOT_FOUND"
      ("Archetype schema not found: " ++ type))
  | some schema =>
      .ok { type_id := schema.type_id
            schema_version := schema.schema_version
            etag := schema.etag
            json_schema := resolveRefs schema.json_schema
            constraints := schema.constraints
            slot_hints := schema.slot_hints
            examples := schema.examples
            updated_at := schema.updated_at }

/-! `create_card` (src/tools/card_tools.py, lines 222-417). The card and
strategy collections are carried as explicit state and returned even when
the call raises, so that writes performed before an exception stay
visible (Firestore writes are not rolled back). -/

/-- `VALID_ROLES` of src/tools/card_tools.py (line 201): the six-role set. -/
def CARD_TOOL_ROLES : List String :=
  ["entry", "gate", "exit", "sizing", "risk", "overlay"]

/-- `CreateCardResponse` (src/tools/card_tools.py). -/
structure CreateCardResponse where
  card_id : String
  type : String
  slots : List (String × Json)
  schema_etag : String
  created_at : String
  strategy_id : Option String
  attached : Bool
deriving DecidableEq

/-- The stores `create_card` touches. -/
structure CardToolEnv where
  cards : List (String × Card)
  strategies : StratStore
  schemas : String → Option ArchetypeSchema
  commonDefs : Option Json := none
  hasStrategyRepo : Bool := true

/-- Embedding of `create_card`: validate the slots, persist the card
(assigning `newCardId` and stamping both timestamps with `now`), then — when
a strategy id is given — check the role, fetch the strategy, check for a
duplicate attachment, auto-assign the order when none was passed (reading
`att.order`, a field `Attachment` does not define, so a non-empty
attachments list raises `AttributeError`), build the attachment (whose
constructor ignores the unknown `order` keyword) and update the strategy. -/
def createCard (env : CardToolEnv) (now newCardId : String) (type : String)
    (slots : List (String × Json)) (strategyId : Option String)
    (role : Option String) (overrides : List (String × Json))
    (followLatest : Bool) (order : Option Int) (enabled : Bool) :
    CardToolEnv × Except PyExc CreateCardResponse :=
  match env.schemas type with
  | none => (env, .error (.structuredToolError "ARCHETYPE_NOT_FOUND"
      ("Archetype not found: " ++ type)))
  | some schema =>
      match validateSlotsAgainstSchema env.commonDefs (.obj slots) schema.json_schema with
      | .error e => (env, .error e)
      | .ok validationErrors =>
          if !validationErrors.isEmpty then
            (env, .error (.structuredToolError "SCHEMA_VALIDATION_ERROR"
              ("Slot validation failed for archetype '" ++ type ++ "'")))
          else
            let createdCard : Card :=
              { id := newCardId, type := type, slots := slots,
                schema_etag := schema.etag, created_at := now, updated_at := now }
            let env₁ := { env with cards := env.cards ++ [(newCardId, createdCard)] }
            match strategyId with
            | none =>
                let resp : CreateCardResponse :=
                  { card_id := newCardId, type := type, slots := slots,
                    schema_etag := schema.etag, created_at := now,
                    strategy_id := none, attached := false }
                (env₁, .ok resp)
            | some sid =>
                if !env.hasStrategyRepo then
                  (env₁, .error (.structuredToolError "INTERNAL_ERROR"
                    "Strategy repository not available. Cannot attach card to strategy."))
                else
                  match role with
                  | none => (env₁, .error (.structuredToolError "INVALID_ROLE"
                      "Role is required when strategy_id is provided."))
                  | some r =>
                      if !(CARD_TOOL_ROLES.contains r) then
                        (env₁, .error (.structuredToolError "INVALID_ROLE"
                          ("Invalid role: " ++ r)))
                      else
                        match slookup env₁.strategies sid with
                        | none => (env₁, .error (.structuredToolError "STRATEGY_NOT_FOUND"
                            ("Strategy not found: " ++ sid)))
                        | some strategy =>
                            if strategy.attachments.any
                                (fun att => att.card_id = newCardId) then
                              (env₁, .error (.structuredToolError "DUPLICATE_ATTACHMENT"
                                ("Card " ++ newCardId ++ " is already attached to strategy "
                                  ++ sid ++ ".")))
                            else
                              let attachWith : Int → CardToolEnv × Except PyExc CreateCardResponse :=
                                fun _attachmentOrder =>
                                  let cardRevisionId : Option String :=
                                    if !followLatest then some createdCard.updated_at
                                    else none
                                  let attachment : Attachment :=
                                    { card_id := newCardId, role := r, enabled := enabled,
                                      overrides := overrides, follow_latest := followLatest,
                                      card_revision_id := cardRevisionId }
                                  match repoUpdateStrategy env₁.strategies now
                                      { strategy with
                                        attachments := strategy.attachments ++ [attachment] } with
                                  | .error e => (env₁, .error e)
                                  | .ok (strategies', _) =>
                                      let resp : CreateCardResponse :=
                                        { card_id := newCardId, type := type,
                                          slots := slots, schema_etag := schema.etag,
                                          created_at := now, strategy_id := some sid,
                                          attached := true }
                                      ({ env₁ with strategies := strategies' }, .ok resp)
                              match order with
                              | none =>
                                  if !strategy.attachments.isEmpty then
                                    (env₁, .error (.attributeError "order"))
                                  else attachWith 1
                              | some o => attachWith o

/-! Claim theorems. -/

/-- C3: the spec claims the slot validator never throws when the
common-definitions pool is missing and that an unresolvable `$ref` is
surfaced in the returned error list. The in-code comment (card_tools.py
lines 148-149) states the same intent, but the `except` clause catches only
`jsonschema.ValidationError` while an unresolvable `$ref` raises
`jsonschema.RefResolutionError`, which escapes: with no pool, validating
any slots against a schema that is a pool reference raises instead of
returning a message list. -/
theorem c3_missing_pool_raises :
    validateSlotsAgainstSchema none (.obj [])
        (.obj [("$ref", .str "common_defs.schema.json#/$defs/ContextSpec")])
      = .error (.refResolutionError "common_defs.schema.json#/$defs/ContextSpec") := by
  decide

/-- Schema used for the C4 counterexample: an object whose `a` and `b`
properties must both be integers. -/
def c4Schema : Json :=
  .obj [("type", .str "object"),
        ("properties", .obj [("a", .obj [("type", .str "integer")]),
                             ("b", .obj [("type", .str "integer")])])]

/-- C4 counterexample: the claim says an input violating n independent
constraints yields n messages. Violating only `a` yields one message, and
violating only `b` yields one message, so `a` and `b` are independent
constraints; yet the input violating both also yields a single message
(the library's `validate` raises only the first error), not two. -/
theorem c4_counterexample :
    (validateSlotsAgainstSchema none (.obj [("a", .str "x"), ("b", .num 1)])
        c4Schema).map List.length = .ok 1 ∧
    (validateSlotsAgainstSchema none (.obj [("a", .num 1), ("b", .str "y")])
        c4Schema).map List.length = .ok 1 ∧
    (validateSlotsAgainstSchema none (.obj [("a", .str "x"), ("b", .str "y")])
        c4Schema).map List.length = .ok 1 := by
  decide

/-- C4 (amended): the slot validator returns AT MOST ONE error message —
the first violation the library encounters — rather than one per
violation; the returned list is empty exactly when the slots satisfy every
constraint of the schema; and the single message, when present, is the
formatted first violation (dotted path, library message, parenthesized
enum/minimum/maximum hints found at that point of the schema). -/
theorem c4_at_most_one_error (commonDefs : Option Json) (slots schema : Json)
    (msgs : List String)
    (h : validateSlotsAgainstSchema commonDefs slots schema = .ok msgs) :
    msgs.length ≤ 1 ∧
    (msgs = [] ↔
      jsAllValid valFuel schema (commonStore commonDefs) schema slots = some true) ∧
    (∀ m ∈ msgs, ∃ apath emsg,
      jsValidate valFuel schema (commonStore commonDefs) schema slots [] =
        .error (.validationError apath emsg) ∧
      formatValidationError schema apath emsg = .ok m) := by
  unfold validateSlotsAgainstSchema at h
  cases hv : jsValidate valFuel schema (commonStore commonDefs) schema slots [] with
  | ok u =>
      obtain ⟨⟩ := u
      rw [hv] at h
      simp at h
      subst h
      refine ⟨by simp, ?_, by simp⟩
      simp [(jsValidate_ok_iff valFuel schema (commonStore commonDefs) schema
        slots []).mp hv]
  | error e =>
      rw [hv] at h
      have hnv : jsAllValid valFuel schema (commonStore commonDefs) schema slots
          ≠ some true := by
        intro hcon
        rw [← jsValidate_ok_iff valFuel schema (commonStore commonDefs) schema
          slots []] at hcon
        rw [hv] at hcon
        cases hcon
      cases e with
      | validationError apath emsg =>
          simp only [] at h
          cases hf : formatValidationError schema apath emsg with
          | ok m =>
              rw [hf] at h
              simp at h
              subst h
              refine ⟨by simp, by simp [hnv], ?_⟩
              intro m' hm'
              simp at hm'
              subst hm'
              exact ⟨apath, emsg, rfl, hf⟩
          | error e' =>
              rw [hf] at h
              cases h
      | refResolutionError r => simp at h
      | fuelExhausted => simp at h
      | structuredToolError c m => simp at h
      | attributeError a => simp at h
      | keyError k => simp at h
      | typeError t => simp at h
      | valueError v => simp at h

/-- Witness slots/schema for C4 amended: a schema with an enum-and-range
property and a violating instance, exercising both the at-most-one bound
and the formatted message. -/
def c4wSchema : Json :=
  .obj [("type", .str "object"),
        ("properties", .obj [("mult", .obj [("type", .str "integer"),
                                            ("minimum", .num 1),
                                            ("maximum", .num 5)])])]

theorem c4_at_most_one_error_witness :
    (validateSlotsAgainstSchema none (.obj [("mult", .num 10)]) c4wSchema =
      .ok ["Validation error at 'mult': 10 is greater than the maximum of 5 (must be between 1 and 5)"]) ∧
    ((["Validation error at 'mult': 10 is greater than the maximum of 5 (must be between 1 and 5)"] : List String).length ≤ 1 ∧
      ((["Validation error at 'mult': 10 is greater than the maximum of 5 (must be between 1 and 5)"] : List String) = [] ↔
        jsAllValid valFuel c4wSchema (commonStore none) c4wSchema
          (.obj [("mult", .num 10)]) = some true)) :=
  ⟨by decide,
   (c4_at_most_one_error none (.obj [("mult", .num 10)]) c4wSchema
      ["Validation error at 'mult': 10 is greater than the maximum of 5 (must be between 1 and 5)"]
      (by decide)).1,
   (c4_at_most_one_error none (.obj [("mult", .num 10)]) c4wSchema
      ["Validation error at 'mult': 10 is greater than the maximum of 5 (must be between 1 and 5)"]
      (by decide)).2.1⟩

/-- C5: the key-wise contract of `deep_merge` — keys only in the base keep
the base's value, keys only in the override take the override's value
verbatim, keys in both recurse when both values are dicts and otherwise
take the override's value (null and whole arrays included) — together with
the mutation discipline: in the heap semantics, every dict that existed
before the call (the base and everything reachable from it) reads
unchanged afterwards, since the function writes only to copies it
allocates itself. -/
theorem c5_deep_merge (base override : List (String × Json))
    (hnd : (keysOf override).Nodup) :
    (∀ k, jlookup override k = none →
        jlookup (deepMerge base override) k = jlookup base k) ∧
    (∀ k v, jlookup override k = some v → jlookup base k = none →
        jlookup (deepMerge base override) k = some v) ∧
    (∀ k okvs bkvs, jlookup override k = some (.obj okvs) →
        jlookup base k = some (.obj bkvs) →
        jlookup (deepMerge base override) k = some (.obj (deepMerge bkvs okvs))) ∧
    (∀ k v bv, jlookup override k = some v → jlookup base k = some bv →
        ((∀ okvs, v ≠ .obj okvs) ∨ (∀ bkvs, bv ≠ .obj bkvs)) →
        jlookup (deepMerge base override) k = some v) ∧
    (∀ fuel hp ab ao hp' ar, deepMergeH fuel hp ab ao = some (hp', ar) →
        ∀ a, a < hp.cells.length → hp'.read a = hp.read a) := by
  refine ⟨?_, ?_, ?_, ?_, ?_⟩
  · intro k hk
    exact deepMerge_lookup_not_overridden base override k hk
  · intro k v ho hb
    have := deepMerge_lookup_overridden base override k v hnd ho
    rw [this]
    cases v with
    | obj okvs => simp [mergedValue, hb]
    | null => simp [mergedValue]
    | bool b => simp [mergedValue]
    | num n => simp [mergedValue]
    | str s => simp [mergedValue]
    | arr xs => simp [mergedValue]
  · intro k okvs bkvs ho hb
    have := deepMerge_lookup_overridden base override k (.obj okvs) hnd ho
    rw [this]
    simp [mergedValue, hb]
  · intro k v bv ho hb hcase
    have := deepMerge_lookup_overridden base override k v hnd ho
    rw [this]
    cases hcase with
    | inl hno =>
        cases v with
        | obj okvs => exact absurd rfl (hno okvs)
        | null => simp [mergedValue]
        | bool b => simp [mergedValue]
        | num n => simp [mergedValue]
        | str s => simp [mergedValue]
        | arr xs => simp [mergedValue]
    | inr hnb =>
        cases v with
        | obj okvs =>
            cases bv with
            | obj bkvs => exact absurd rfl (hnb bkvs)
            | null => simp [mergedValue, hb]
            | bool b => simp [mergedValue, hb]
            | num n => simp [mergedValue, hb]
            | str s => simp [mergedValue, hb]
            | arr xs => simp [mergedValue, hb]
        | null => simp [mergedValue]
        | bool b => simp [mergedValue]
        | num n => simp [mergedValue]
        | str s => simp [mergedValue]
        | arr xs => simp [mergedValue]
  · intro fuel hp ab ao hp' ar he a ha
    exact (deepMergeH_frame fuel hp ab ao hp' ar he).2.2 a ha

/-- Witness data for C5: a base and an override sharing the nested dict
`b`, with a null override of `a` and a fresh key `c`. -/
def c5Base : List (String × Json) :=
  [("a", .num 1), ("b", .obj [("x", .num 2)]), ("d", .str "keep")]

def c5Override : List (String × Json) :=
  [("b", .obj [("y", .null)]), ("c", .arr []), ("a", .null)]

/-- Two-dict heap for the C5 mutation witness. -/
def c5Heap : Heap := ⟨[[("a", .num 1)], [("a", .num 2)]]⟩

theorem c5_deep_merge_witness :
    (keysOf c5Override).Nodup ∧
    jlookup (deepMerge c5Base c5Override) "d" = jlookup c5Base "d" ∧
    jlookup (deepMerge c5Base c5Override) "c" = some (.arr []) ∧
    jlookup (deepMerge c5Base c5Override) "b" =
      some (.obj (deepMerge [("x", .num 2)] [("y", .null)])) ∧
    jlookup (deepMerge c5Base c5Override) "a" = some .null ∧
    (deepMergeH 3 c5Heap 0 1).isSome = true ∧
    (∀ hp' ar, deepMergeH 3 c5Heap 0 1 = some (hp', ar) →
        hp'.read 0 = c5Heap.read 0 ∧ hp'.read 1 = c5Heap.read 1) :=
  ⟨by decide,
   (c5_deep_merge c5Base c5Override (by decide)).1 "d" (by decide),
   (c5_deep_merge c5Base c5Override (by decide)).2.1 "c" (.arr [])
     (by decide) (by decide),
   (c5_deep_merge c5Base c5Override (by decide)).2.2.1 "b" [("y", .null)]
     [("x", .num 2)] (by decide) (by decide),
   (c5_deep_merge c5Base c5Override (by decide)).2.2.2.1 "a" .null (.num 1)
     (by decide) (by decide) (Or.inl (by intro okvs hcon; cases hcon)),
   by decide,
   fun hp' ar he =>
     ⟨(c5_deep_merge c5Base c5Override (by decide)).2.2.2.2 3 c5Heap 0 1 hp' ar
        he 0 (by decide),
      (c5_deep_merge c5Base c5Override (by decide)).2.2.2.2 3 c5Heap 0 1 hp' ar
        he 1 (by decide)⟩⟩

theorem slookup_sset_self {α : Type} (xs : List (String × α)) (k : String) (v : α) :
    slookup (sset xs k v) k = some v := by
  induction xs with
  | nil => simp [sset, slookup]
  | cons kv rest ih =>
      obtain ⟨k', v'⟩ := kv
      by_cases h : k' = k
      · simp [sset, slookup, h]
      · simp [sset, slookup, h, ih]

/-- C8: after a successful `update_strategy_meta`, the stored strategy's
version is exactly one more than the version read before the call,
`created_at` is unchanged, `updated_at` is stamped with the wall clock
(hence strictly later whenever the clock is past the previous update), and
the fields not supplied (name, status, universe) keep their values. -/
theorem c8_update_strategy_meta (store : StratStore) (now sid : String)
    (name status : Option String) (universeArg : Option (List String))
    (s : Strategy) (store' : StratStore) (resp : UpdateStrategyMetaResponse)
    (hbefore : slookup store sid = some s) (hid : s.id = sid)
    (h : updateStrategyMeta store now sid name status universeArg =
      .ok (store', resp)) :
    ∃ s', slookup store' sid = some s' ∧
      s'.version = s.version + 1 ∧
      s'.created_at = s.created_at ∧
      s'.updated_at = now ∧
      (s.updated_at < now → s.updated_at < s'.updated_at) ∧
      (name = none → s'.name = s.name) ∧
      (status = none → s'.status = s.status) ∧
      (universeArg = none → s'.univ = s.univ) := by
  have hAid : (applyMetaUpdates s name status universeArg).id = sid := by
    cases name <;> cases status <;> cases universeArg <;>
      simp [applyMetaUpdates, hid]
  unfold updateStrategyMeta at h
  rw [hbefore] at h
  simp only [] at h
  split at h
  · simp at h
  · cases hru : repoUpdateStrategy store now
        (applyMetaUpdates s name status universeArg) with
    | error e =>
        rw [hru] at h
        simp at h
    | ok pr =>
        obtain ⟨store1, updated1⟩ := pr
        rw [hru] at h
        simp at h
        obtain ⟨hstore1, -⟩ := h
        unfold repoUpdateStrategy at hru
        rw [hAid] at hru
        by_cases hsid : sid = ""
        · rw [if_pos hsid] at hru
          simp at hru
        · rw [if_neg hsid, hbefore] at hru
          simp only [] at hru
          simp at hru
          obtain ⟨hss, hupd⟩ := hru
          refine ⟨updated1, ?_, ?_, ?_, ?_, ?_, ?_, ?_, ?_⟩
          · rw [← hstore1, ← hss, ← hupd]
            exact slookup_sset_self store sid _
          · rw [← hupd]
          · rw [← hupd]
            cases name <;> cases status <;> cases universeArg <;>
              simp [applyMetaUpdates]
          · rw [← hupd]
          · intro hc
            rw [← hupd]
            exact hc
          · intro hn
            subst hn
            rw [← hupd]
            cases status <;> cases universeArg <;> simp [applyMetaUpdates]
          · intro hs
            subst hs
            rw [← hupd]
            cases name <;> cases universeArg <;> simp [applyMetaUpdates]
          · intro hu
            subst hu
            rw [← hupd]
            cases name <;> cases status <;> simp [applyMetaUpdates]

/-- Witness store and strategy for C8. -/
def c8Strategy : Strategy :=
  { id := "s1", name := "Old", status := "draft", univ := ["BTC-USD"],
    attachments := [], version := 3, created_at := "t0", updated_at := "t1" }

theorem c8_update_strategy_meta_witness :
    slookup [("s1", c8Strategy)] "s1" = some c8Strategy ∧
    (∀ store' resp,
      updateStrategyMeta [("s1", c8Strategy)] "t2" "s1" (some "New") none none =
        .ok (store', resp) →
      ∃ s', slookup store' "s1" = some s' ∧
        s'.version = c8Strategy.version + 1 ∧
        s'.created_at = c8Strategy.created_at ∧
        s'.updated_at = "t2" ∧
        (c8Strategy.updated_at < "t2" → c8Strategy.updated_at < s'.updated_at) ∧
        (some "New" = none → s'.name = c8Strategy.name) ∧
        ((none : Option String) = none → s'.status = c8Strategy.status) ∧
        ((none : Option (List String)) = none → s'.univ = c8Strategy.univ)) ∧
    (updateStrategyMeta [("s1", c8Strategy)] "t2" "s1" (some "New") none none).isOk
      = true :=
  ⟨by decide,
   fun store' resp h =>
     c8_update_strategy_meta [("s1", c8Strategy)] "t2" "s1" (some "New") none none
       c8Strategy store' resp (by decide) (by decide) h,
   by decide⟩

/-- C9: `get_archetype_schema` ignores `if_none_match` entirely (the
etag-compare branch of the source is a `pass`), so the response is
identical whether the header is omitted, mismatching or matching; and on
success the response carries the schema's own etag together with the full
(reference-resolved) schema document. Quantified over every resolver
function standing for `_resolve_schema_references`. -/
theorem c9_schema_etag_roundtrip (resolveRefs : Json → Json)
    (schemas : String → Option ArchetypeSchema) (type : String)
    (inm₁ inm₂ : Option String) :
    getArchetypeSchema resolveRefs schemas type inm₁ =
      getArchetypeSchema resolveRefs schemas type inm₂ ∧
    (∀ s, schemas type = some s →
      getArchetypeSchema resolveRefs schemas type inm₁ =
        .ok { type_id := s.type_id, schema_version := s.schema_version,
              etag := s.etag, json_schema := resolveRefs s.json_schema,
              constraints := s.constraints, slot_hints := s.slot_hints,
              examples := s.examples, updated_at := s.updated_at }) := by
  constructor
  · rfl
  · intro s hs
    simp [getArchetypeSchema, hs]

/-- Witness catalog for C9. -/
def c9Schema : ArchetypeSchema :=
  { type_id := "entry.x", schema_version := 1, etag := "W-e1",
    json_schema := .obj [], updated_at := "t0" }

def c9Schemas : String → Option ArchetypeSchema :=
  fun t => if t = "entry.x" then some c9Schema else none

theorem c9_schema_etag_roundtrip_witness :
    (getArchetypeSchema id c9Schemas "entry.x" (some "W-e1") =
      getArchetypeSchema id c9Schemas "entry.x" none) ∧
    (match getArchetypeSchema id c9Schemas "entry.x" (some "W-e1") with
     | .ok r => r.etag = "W-e1"
     | .error _ => False) :=
  ⟨(c9_schema_etag_roundtrip id c9Schemas "entry.x" (some "W-e1") none).1,
   by
     have h := (c9_schema_etag_roundtrip id c9Schemas "entry.x" (some "W-e1")
       none).2 c9Schema (by decide)
     rw [h]
     decide⟩

/-- C10 fixture: a strategy that already has one attachment, so auto-order
assignment must read `att.order`. -/
def c10Strategy : Strategy :=
  { id := "s1", name := "S", status := "draft", univ := ["BTC-USD"],
    attachments := [{ card_id := "old", role := "entry" }], version := 1,
    created_at := "t0", updated_at := "t0" }

def c10Schema : ArchetypeSchema :=
  { type_id := "entry.x", etag := "e1", json_schema := .obj [],
    updated_at := "t0" }

def c10Env : CardToolEnv :=
  { cards := [], strategies := [("s1", c10Strategy)],
    schemas := fun t => if t = "entry.x" then some c10Schema else none,
    commonDefs := none, hasStrategyRepo := true }

def c10Slots : List (String × Json) :=
  [("context", .obj [("symbol", .str "BTC-USD"), ("tf", .str "1h")])]

/-- C10: calling `create_card` with a strategy whose attachments list is
non-empty, valid slots, a valid role and no explicit order raises an
uncaught `AttributeError` — the auto-order computation reads `att.order`,
a field the `Attachment` model does not define — and it does so AFTER the
card document has been persisted: the card collection holds the new card
while the strategy is left unattached, so the call neither completes nor
leaves the store unchanged. -/
theorem c10_create_card_order_crash :
    (createCard c10Env "t1" "newcard" "entry.x" c10Slots (some "s1")
        (some "entry") [] false none true).2 =
      .error (.attributeError "order") ∧
    slookup (createCard c10Env "t1" "newcard" "entry.x" c10Slots (some "s1")
        (some "entry") [] false none true).1.cards "newcard" =
      some { id := "newcard", type := "entry.x", slots := c10Slots,
             schema_etag := "e1", created_at := "t1", updated_at := "t1" } ∧
    (createCard c10Env "t1" "newcard" "entry.x" c10Slots (some "s1")
        (some "entry") [] false none true).1.strategies = c10Env.strategies := by
  decide

/-- `ProcOutcome` with the compiled card rebuilt at a given
`card_revision_id`: how the loop body's outcome depends on `rev`. -/
def maskOutcome (rev : Option String) : ProcOutcome → ProcOutcome
  | .skip is => .skip is
  | .compiledOk c key mb => .compiledOk { c with card_revision_id := rev } key mb

/-- The recorded revision is the ONLY thing in the shared loop body that
depends on `rev`. -/
theorem processResolvedCore_mask (env : Env) (att : Attachment) (card : Card)
    (rev rev' : Option String) :
    processResolvedCore env att card rev =
      Except.map (maskOutcome rev) (processResolvedCore env att card rev') := by
  cases hs : env.schemas card.type with
  | none => simp [processResolvedCore, hs, maskOutcome, Except.map]
  | some schema =>
      cases hv : validateSlotsAgainstSchema env.commonDefs
          (.obj (effSlotsOf att card)) schema.json_schema with
      | error e => simp [processResolvedCore, hs, hv, Except.map]
      | ok errs =>
          cases he : errs.isEmpty with
          | false => simp [processResolvedCore, hs, hv, he, maskOutcome, Except.map]
          | true =>
              cases hc : contextSymbolTf (effSlotsOf att card) with
              | error e => simp [processResolvedCore, hs, hv, he, hc, Except.map]
              | ok p =>
                  obtain ⟨symbol, tf⟩ := p
                  cases symbol with
                  | none =>
                      simp [processResolvedCore, hs, hv, he, hc, truthyOpt,
                        maskOutcome, Except.map]
                  | some sv =>
                      cases tf with
                      | none =>
                          simp [processResolvedCore, hs, hv, he, hc, truthyOpt,
                            maskOutcome, Except.map]
                      | some tv =>
                          cases hsv : sv.truthy with
                          | false =>
                              simp [processResolvedCore, hs, hv, he, hc, truthyOpt,
                                hsv, maskOutcome, Except.map]
                          | true =>
                              cases htv : tv.truthy with
                              | false =>
                                  simp [processResolvedCore, hs, hv, he, hc,
                                    truthyOpt, hsv, htv, maskOutcome, Except.map]
                              | true =>
                                  cases h1 : extractAndCompileCondition
                                      (effSlotsOf att card) with
                                  | error e =>
                                      simp [processResolvedCore, hs, hv, he, hc,
                                        truthyOpt, hsv, htv, h1, Except.map]
                                  | ok cc =>
                                      cases h2 : extractExecutionSpec
                                          (effSlotsOf att card) with
                                      | error e =>
                                          simp [processResolvedCore, hs, hv, he, hc,
                                            truthyOpt, hsv, htv, h1, h2, Except.map]
                                      | ok ex =>
                                          cases h3 : extractSizingSpec
                                              (effSlotsOf att card) with
                                          | error e =>
                                              simp [processResolvedCore, hs, hv, he,
                                                hc, truthyOpt, hsv, htv, h1, h2, h3,
                                                Except.map]
                                          | ok sz =>
                                              simp [processResolvedCore, hs, hv, he,
                                                hc, truthyOpt, hsv, htv, h1, h2, h3,
                                                maskOutcome, Except.map]

/-- When the shared loop body compiles a card, the `(symbol, tf)` key and
`min_bars` it folds into the data-requirements dict are exactly the ones
recomputable from the compiled card, and the card's fields come from the
attachment, the card document and the given `rev`. -/
theorem processResolvedCore_compiledOk (env : Env) (att : Attachment)
    (card : Card) (rev : Option String) (c : CompiledCard) (key : Json × Json)
    (mb : Int)
    (h : processResolvedCore env att card rev = .ok (.compiledOk c key mb)) :
    key = cardSymbolTf c ∧ mb = cardMinBars env c ∧
    c.card_revision_id = rev ∧ c.role = att.role ∧ c.card_id = att.card_id ∧
    c.type = card.type ∧ c.effective_slots = effSlotsOf att card := by
  cases hs : env.schemas card.type with
  | none => simp [processResolvedCore, hs] at h
  | some schema =>
      cases hv : validateSlotsAgainstSchema env.commonDefs
          (.obj (effSlotsOf att card)) schema.json_schema with
      | error e => simp [processResolvedCore, hs, hv] at h
      | ok errs =>
          cases he : errs.isEmpty with
          | false => simp [processResolvedCore, hs, hv, he] at h
          | true =>
              cases hc : contextSymbolTf (effSlotsOf att card) with
              | error e => simp [processResolvedCore, hs, hv, he, hc] at h
              | ok p =>
                  obtain ⟨symbol, tf⟩ := p
                  cases symbol with
                  | none => simp [processResolvedCore, hs, hv, he, hc, truthyOpt] at h
                  | some sv =>
                      cases tf with
                      | none =>
                          simp [processResolvedCore, hs, hv, he, hc, truthyOpt] at h
                      | some tv =>
                          cases hsv : sv.truthy with
                          | false =>
                              simp [processResolvedCore, hs, hv, he, hc, truthyOpt,
                                hsv] at h
                          | true =>
                              cases htv : tv.truthy with
                              | false =>
                                  simp [processResolvedCore, hs, hv, he, hc,
                                    truthyOpt, hsv, htv] at h
                              | true =>
                                  cases h1 : extractAndCompileCondition
                                      (effSlotsOf att card) with
                                  | error e =>
                                      simp [processResolvedCore, hs, hv, he, hc,
                                        truthyOpt, hsv, htv, h1] at h
                                  | ok cc =>
                                      cases h2 : extractExecutionSpec
                                          (effSlotsOf att card) with
                                      | error e =>
                                          simp [processResolvedCore, hs, hv, he, hc,
                                            truthyOpt, hsv, htv, h1, h2] at h
                                      | ok ex =>
                                          cases h3 : extractSizingSpec
                                              (effSlotsOf att card) with
                                          | error e =>
                                              simp [processResolvedCore, hs, hv, he,
                                                hc, truthyOpt, hsv, htv, h1, h2,
                                                h3] at h
                                          | ok sz =>
                                              simp only [processResolvedCore, hs, hv,
                                                he, hc, truthyOpt, hsv, htv, h1, h2,
                                                h3] at h
                                              simp at h
                                              obtain ⟨hcEq, hkey, hmb⟩ := h
                                              subst hcEq
                                              subst hkey
                                              subst hmb
                                              refine ⟨?_, ?_, rfl, rfl, rfl, rfl, rfl⟩
                                              · simp [cardSymbolTf, hc]
                                              · simp [cardMinBars, hs]

/-- An attachment on which the two pipelines take the same path: enabled,
its card present, and (when pinned) the pinned revision current. -/
def GoodAtt (env : Env) (att : Attachment) : Prop :=
  att.enabled = true ∧
  ∃ card, env.cards att.card_id = some card ∧
    (att.follow_latest = false → att.card_revision_id = some card.updated_at)

/-- Loop states of the two pipelines that agree on everything either
response depends on: the issues, and the compiled cards up to their
recorded revision. -/
def StRel (st st' : LoopState) : Prop :=
  st.issues = st'.issues ∧
  st.compiledCards.map maskCard = st'.compiledCards.map maskCard

/-- `StRel` lifted to the loop's fallible results. -/
def ExcRel : Except PyExc LoopState → Except PyExc LoopState → Prop
  | .error e, .error e' => e = e'
  | .ok st, .ok st' => StRel st st'
  | _, _ => False

/-- The shared loop tail preserves `StRel` whatever revisions the two
sides record. -/
theorem processResolvedCard_rel (env : Env) (att : Attachment) (card : Card)
    (rev rev' : Option String) (st st' : LoopState) (hR : StRel st st') :
    ExcRel (processResolvedCard env att card rev st)
      (processResolvedCard env att card rev' st') := by
  have hm := processResolvedCore_mask env att card rev rev'
  obtain ⟨hIss, hCards⟩ := hR
  cases hpr : processResolvedCore env att card rev' with
  | error e =>
      rw [hpr] at hm
      simp [Except.map] at hm
      simp [processResolvedCard, hm, hpr, ExcRel]
  | ok o =>
      rw [hpr] at hm
      simp [Except.map] at hm
      cases o with
      | skip is =>
          simp [processResolvedCard, hm, hpr, maskOutcome, ExcRel, StRel,
            hIss, hCards]
      | compiledOk c key mb =>
          simp [processResolvedCard, hm, hpr, maskOutcome, ExcRel, StRel,
            hIss, hCards, maskCard]

/-- On a `GoodAtt`, one compile-loop step and one validate-loop step stay
related. -/
theorem attachment_step_rel (env : Env) (att : Attachment) (st st' : LoopState)
    (hg : GoodAtt env att) (hR : StRel st st') :
    ExcRel (compileAttachment env st att) (validateAttachment env st' att) := by
  obtain ⟨hen, card, hcard, hpin⟩ := hg
  cases hfl : att.follow_latest with
  | true =>
      simp only [compileAttachment, validateAttachment, hen, hfl, hcard,
        Bool.not_true, Bool.false_eq_true, if_false, if_true]
      exact processResolvedCard_rel env att card (some card.updated_at) none st st' hR
  | false =>
      have hp := hpin hfl
      simp only [compileAttachment, validateAttachment, hen, hfl, hcard,
        Bool.not_true, Bool.false_eq_true, if_false, if_true, hp]
      exact processResolvedCard_rel env att card (some card.updated_at)
        (some card.updated_at) st st' hR

/-- Over a list of `GoodAtt` attachments the two loops stay related. -/
theorem run_rel (env : Env) :
    ∀ (atts : List Attachment) (st st' : LoopState),
      (∀ att ∈ atts, GoodAtt env att) → StRel st st' →
      ExcRel (runAttachments (compileAttachment env) st atts)
        (runAttachments (validateAttachment env) st' atts) := by
  intro atts
  induction atts with
  | nil => intro st st' _ hR; simpa [runAttachments, ExcRel] using hR
  | cons att rest ih =>
      intro st st' hg hR
      have hstep := attachment_step_rel env att st st' (hg att (by simp)) hR
      cases hx : compileAttachment env st att with
      | error e =>
          cases hy : validateAttachment env st' att with
          | error e' =>
              rw [hx, hy] at hstep
              simp [ExcRel] at hstep
              subst hstep
              simp [runAttachments, hx, hy, ExcRel]
          | ok st1 =>
              rw [hx, hy] at hstep
              simp [ExcRel] at hstep
      | ok st1 =>
          cases hy : validateAttachment env st' att with
          | error e' =>
              rw [hx, hy] at hstep
              simp [ExcRel] at hstep
          | ok st1' =>
              rw [hx, hy] at hstep
              simp only [ExcRel] at hstep
              simp only [runAttachments, hx, hy]
              exact ih st1 st1' (fun a ha => hg a (by simp [ha])) hstep

/-- Cards equal up to the recorded revision have the same role. -/
theorem maskCard_role {c c' : CompiledCard} (h : maskCard c = maskCard c') :
    c.role = c'.role := by
  have := congrArg CompiledCard.role h
  simpa [maskCard] using this

/-- The single-asset loop body never looks at the recorded revision. -/
theorem mvpProcessCard_mask {c c' : CompiledCard} (h : maskCard c = maskCard c') :
    mvpProcessCard c = mvpProcessCard c' := by
  cases c
  cases c'
  simp [maskCard] at h
  obtain ⟨h1, h2, h3, h4, h5, h6, h7⟩ := h
  subst h1
  subst h2
  subst h3
  subst h4
  subst h5
  subst h6
  subst h7
  rfl

/-- The single-asset collection loop only depends on the cards up to their
recorded revisions. -/
theorem mvpCollect_mask :
    ∀ (cc cc' : List CompiledCard) (acc : List Json × List Issue),
      cc.map maskCard = cc'.map maskCard →
      mvpCollect acc cc = mvpCollect acc cc' := by
  intro cc
  induction cc with
  | nil =>
      intro cc' acc h
      cases cc' with
      | nil => rfl
      | cons c' rest' => simp at h
  | cons c rest ih =>
      intro cc' acc h
      cases cc' with
      | nil => simp at h
      | cons c' rest' =>
          simp at h
          obtain ⟨hm, hrest⟩ := h
          have hrole := maskCard_role hm
          have hproc := mvpProcessCard_mask hm
          by_cases hr : c'.role = "entry"
          · simp only [mvpCollect, hrole, hproc, hr, if_true]
            cases hpc : mvpProcessCard c' with
            | error e => rfl
            | ok p =>
                obtain ⟨symbol, issue⟩ := p
                exact ih rest' _ hrest
          · simp only [mvpCollect, hrole, hproc, hr, if_false]
            exact ih rest' acc hrest

/-- The MVP single-asset issues only depend on the cards up to their
recorded revisions. -/
theorem mvpIssues_mask (strategy : Strategy) (cc cc' : List CompiledCard)
    (h : cc.map maskCard = cc'.map maskCard) :
    mvpIssues strategy cc = mvpIssues strategy cc' := by
  unfold mvpIssues
  rw [mvpCollect_mask cc cc' ([], []) h]

/-- Role-filtered counts only depend on the cards up to their recorded
revisions. -/
theorem filterRole_mask :
    ∀ (cc cc' : List CompiledCard), cc.map maskCard = cc'.map maskCard →
      ∀ r, (cc.filter (fun c => c.role = r)).length =
        (cc'.filter (fun c => c.role = r)).length := by
  intro cc
  induction cc with
  | nil =>
      intro cc' h r
      cases cc' with
      | nil => rfl
      | cons c' rest' => simp at h
  | cons c rest ih =>
      intro cc' h r
      cases cc' with
      | nil => simp at h
      | cons c' rest' =>
          simp at h
          obtain ⟨hm, hrest⟩ := h
          have hrole := maskCard_role hm
          simp only [List.filter_cons, hrole]
          by_cases hr : c'.role = r
          · simp [hr, ih rest' hrest r]
          · simp [hr, ih rest' hrest r]

/-- The composition checks only depend on the cards up to their recorded
revisions. -/
theorem compositionIssues_mask (cc cc' : List CompiledCard)
    (h : cc.map maskCard = cc'.map maskCard) :
    compositionIssues cc = compositionIssues cc' := by
  unfold compositionIssues
  rw [filterRole_mask cc cc' h "entry", filterRole_mask cc cc' h "exit"]

/-- C2: **amended**. `compile_strategy` skips disabled attachments and
never compares a pinned revision to the card's `updated_at`, while
`validate_strategy` processes every attachment and rejects stale pins, so
agreement needs those paths to coincide: when every attachment of the
strategy is enabled, references an existing card and (if pinned) pins the
card's current revision, a compile that returns `status_hint="ready"` is
mirrored exactly by `validate_strategy` — the same response with
`compiled` forced to `null` (same status hint, issues and
validation summary). -/
theorem c2_compile_validate_agree (env : Env) (sid : String)
    (strategy : Strategy) (hs : env.strategies sid = some strategy)
    (hatt : ∀ att ∈ strategy.attachments, GoodAtt env att)
    (r : CompileStrategyResponse) (hr : compileStrategy env sid = .ok r)
    (hready : r.status_hint = "ready") :
    validateStrategy env sid = .ok { r with compiled := none } := by
  have hrel := run_rel env strategy.attachments {} {} hatt ⟨rfl, rfl⟩
  unfold compileStrategy at hr
  rw [hs] at hr
  simp only [] at hr
  cases hrun : runAttachments (compileAttachment env) {} strategy.attachments with
  | error e =>
      rw [hrun] at hr
      simp at hr
  | ok stC =>
      rw [hrun] at hr
      simp only [] at hr
      cases hmvp : mvpIssues strategy stC.compiledCards with
      | error e =>
          rw [hmvp] at hr
          simp at hr
      | ok mvp =>
          rw [hmvp] at hr
          simp only [] at hr
          rw [hrun] at hrel
          cases hrunV : runAttachments (validateAttachment env) {}
              strategy.attachments with
          | error e =>
              rw [hrunV] at hrel
              simp [ExcRel] at hrel
          | ok stV =>
              rw [hrunV] at hrel
              simp only [ExcRel, StRel] at hrel
              obtain ⟨hIss, hCards⟩ := hrel
              have hmvpV : mvpIssues strategy stV.compiledCards = .ok mvp := by
                rw [← mvpIssues_mask strategy stC.compiledCards
                  stV.compiledCards hCards]
                exact hmvp
              have hComp := compositionIssues_mask stC.compiledCards
                stV.compiledCards hCards
              have hLen : stC.compiledCards.length = stV.compiledCards.length := by
                have := congrArg List.length hCards
                simpa using this
              simp only [Except.ok.injEq] at hr
              subst hr
              simp only [] at hready
              by_cases hU : strategy.univ.isEmpty
              · exfalso
                have hE0 : ((((stC.issues ++
                      (if strategy.univ.isEmpty then [emptyUniverseIssue] else [])) ++
                      compositionIssues stC.compiledCards) ++ mvp).filter
                      (fun i => i.severity = "error")).length = 0 := by
                  by_cases h0 : ((((stC.issues ++
                      (if strategy.univ.isEmpty then [emptyUniverseIssue] else [])) ++
                      compositionIssues stC.compiledCards) ++ mvp).filter
                      (fun i => i.severity = "error")).length = 0
                  · exact h0
                  · simp only [h0, if_false] at hready
                    exact absurd hready (by decide)
                simp only [hU, if_true, List.filter_append,
                  List.length_append] at hE0
                simp [emptyUniverseIssue] at hE0
              · unfold validateStrategy
                rw [hs]
                simp only []
                rw [hrunV]
                simp only []
                rw [hmvpV]
                simp only []
                simp [hU, hIss, hComp, hLen]

/-- A card whose current revision is "t1". -/
def cexCard : Card :=
  { id := "card1", type := "entry.breakout"
    slots := [("context", .obj [("symbol", .str "BTC-USD"), ("tf", .str "1h")])]
    schema_etag := "e1", created_at := "t0", updated_at := "t1" }

/-- A schema accepting any slots, with `min_history_bars = 200`. -/
def cexSchema : ArchetypeSchema :=
  { type_id := "entry.breakout", etag := "e1", json_schema := .obj []
    constraints := { min_history_bars := some 200 } }

/-- A pinned attachment whose pinned revision "t0" is stale (the card is at
"t1"). -/
def cexAttStale : Attachment :=
  { card_id := "card1", role := "entry", card_revision_id := some "t0" }

/-- A strategy holding only the stale pinned attachment. -/
def cexStrategyStale : Strategy :=
  { id := "s1", name := "S", univ := ["BTC-USD"]
    attachments := [cexAttStale], created_at := "t0", updated_at := "t0" }

/-- The store for the stale-pin scenario. -/
def cexEnvStale : Env :=
  { strategies := fun i => if i = "s1" then some cexStrategyStale else none
    cards := fun i => if i = "card1" then some cexCard else none
    schemas := fun t => if t = "entry.breakout" then some cexSchema else none }

/-- C1, counterexample: `compile_strategy` accepts a pinned attachment
whose pinned revision ("t0") does NOT equal the card's `updated_at`
("t1") — it produces a CompiledCard carrying the stale revision and emits
no `CARD_REVISION_NOT_FOUND` issue, contradicting the claimed iff. -/
theorem c1_counterexample :
    cexAttStale.follow_latest = false ∧
    cexAttStale.enabled = true ∧
    cexEnvStale.cards cexAttStale.card_id = some cexCard ∧
    cexAttStale.card_revision_id = some "t0" ∧
    cexCard.updated_at = "t1" ∧
    Except.map (fun r => r.validation_summary.cards_validated)
      (compileStrategy cexEnvStale "s1") = .ok 1 ∧
    Except.map (fun r => (r.issues.filter
      (fun i => i.code = "CARD_REVISION_NOT_FOUND")).length)
      (compileStrategy cexEnvStale "s1") = .ok 0 ∧
    Except.map (fun r => r.compiled.map (fun cs => cs.cards.map
      (fun c => (c.card_id, c.card_revision_id))))
      (compileStrategy cexEnvStale "s1") = .ok (some [("card1", some "t0")]) := by
  decide

/-- C1: **amended**. Only `validate_strategy` enforces the pin: a pinned
attachment (`follow_latest=false`) passes its revision gate iff the card
exists and the card's `updated_at` equals `card_revision_id`, and
otherwise gets `CARD_REVISION_NOT_FOUND` and is skipped; `compile_strategy`
(on an enabled attachment) performs no revision comparison at all — a
present card is always processed (with the stale pin recorded verbatim),
and an absent card yields `CARD_NOT_FOUND`, never
`CARD_REVISION_NOT_FOUND`. -/
theorem c1_pinned_attachment (env : Env) (st : LoopState) (att : Attachment)
    (hfl : att.follow_latest = false) :
    (∀ card, env.cards att.card_id = some card →
      (att.card_revision_id = some card.updated_at →
        validateAttachment env st att =
          processResolvedCard env att card att.card_revision_id st) ∧
      (att.card_revision_id ≠ some card.updated_at →
        validateAttachment env st att =
          .ok { st with issues := st.issues ++ [revisionIssue att] })) ∧
    (env.cards att.card_id = none →
      validateAttachment env st att =
        .ok { st with issues := st.issues ++ [revisionIssue att] }) ∧
    (att.enabled = true → ∀ card, env.cards att.card_id = some card →
      compileAttachment env st att =
        processResolvedCard env att card att.card_revision_id st) ∧
    (att.enabled = true → env.cards att.card_id = none →
      compileAttachment env st att = .ok { st with issues := st.issues ++ [
        { severity := "error", code := "CARD_NOT_FOUND",
          message := "Card " ++ att.card_id ++ " not found",
          path := some ("attachments[" ++ att.card_id ++ "]") }] }) := by
  refine ⟨?_, ?_, ?_, ?_⟩
  · intro card hcard
    constructor
    · intro hpin
      simp [validateAttachment, hfl, hcard, hpin]
    · intro hpin
      simp [validateAttachment, hfl, hcard, hpin]
  · intro hnone
    simp [validateAttachment, hfl, hnone]
  · intro hen card hcard
    simp [compileAttachment, hen, hfl, hcard]
  · intro hen hnone
    simp [compileAttachment, hen, hfl, hnone]

/-- Witness for C1's amended theorem on the stale-pin store: the validator
rejects the stale pin with `CARD_REVISION_NOT_FOUND`. -/
theorem c1_pinned_attachment_witness :
    validateAttachment cexEnvStale {} cexAttStale =
      .ok { issues := [revisionIssue cexAttStale] } := by
  have h := c1_pinned_attachment cexEnvStale {} cexAttStale rfl
  have h2 := (h.1 cexCard (by decide)).2 (by decide)
  simpa using h2

/-- C2, counterexample: on the stale-pin store, `compile_strategy` reports
`ready` while `validate_strategy` reports `fix_required` — the two
pipelines disagree on the very same state. -/
theorem c2_counterexample :
    Except.map (fun r => r.status_hint) (compileStrategy cexEnvStale "s1") =
      .ok "ready" ∧
    Except.map (fun r => r.status_hint) (validateStrategy cexEnvStale "s1") =
      .ok "fix_required" := by decide

/-- The stale-pin attachment with its pin brought up to date. -/
def cexAttGood : Attachment :=
  { card_id := "card1", role := "entry", card_revision_id := some "t1" }

/-- A strategy holding only the up-to-date pinned attachment. -/
def cexStrategyGood : Strategy :=
  { id := "s1", name := "S", univ := ["BTC-USD"]
    attachments := [cexAttGood], created_at := "t0", updated_at := "t0" }

/-- The store for the up-to-date scenario. -/
def cexEnvGood : Env :=
  { strategies := fun i => if i = "s1" then some cexStrategyGood else none
    cards := fun i => if i = "card1" then some cexCard else none
    schemas := fun t => if t = "entry.breakout" then some cexSchema else none }

/-- What `compile_strategy` returns on the up-to-date store. -/
def cexReadyResp : CompileStrategyResponse :=
  { status_hint := "ready"
    compiled := some
      { strategy_id := "s1", univ := ["BTC-USD"]
        cards := [{ role := "entry", card_id := "card1"
                    card_revision_id := some "t1", type := "entry.breakout"
                    effective_slots := [("context",
                      .obj [("symbol", .str "BTC-USD"), ("tf", .str "1h")])] }]
        data_requirements := [{ symbol := .str "BTC-USD", tf := .str "1h"
                                min_bars := 200, lookback_hours := ⟨200, 1⟩ }] }
    issues := [{ severity := "warning", code := "NO_EXITS"
                 message := "Strategy has no exit cards attached (positions may not close automatically)"
                 path := some "attachments" }]
    validation_summary := { errors := 0, warnings := 1, cards_validated := 1 } }

/-- Witness for C2's amended theorem: on the up-to-date store the compile
response is `ready` and `validate_strategy` returns it verbatim with
`compiled := none`. -/
theorem c2_compile_validate_agree_witness :
    validateStrategy cexEnvGood "s1" = .ok { cexReadyResp with compiled := none } := by
  refine c2_compile_validate_agree cexEnvGood "s1" cexStrategyGood (by decide) ?_
    cexReadyResp (by decide) (by decide)
  intro att hatt
  simp [cexStrategyGood] at hatt
  subst hatt
  exact ⟨rfl, cexCard, by decide, fun h => by decide⟩

/-- A compiled entry card trading "BTC-USD". -/
def c7Card : CompiledCard :=
  { role := "entry", card_id := "c1", type := "entry.breakout"
    effective_slots := [("context",
      .obj [("symbol", .str "BTC-USD"), ("tf", .str "1h")])] }

/-- A strategy whose universe is empty. -/
def c7Strategy : Strategy :=
  { id := "s", name := "n", univ := [], created_at := "t0", updated_at := "t0" }

/-- A strategy whose universe holds two symbols. -/
def c7StrategyMulti : Strategy :=
  { id := "s", name := "n", univ := ["BTC-USD", "ETH-USD"]
    created_at := "t0", updated_at := "t0" }

/-- C7, counterexample: exactly one traded symbol and a universe that does
not contain it (it is empty), yet the single-asset check emits NO
`MVP_UNIVERSE_MISMATCH` — the source guards both universe checks by
`strategy.universe` being non-empty. -/
theorem c7_counterexample :
    c7Strategy.univ = [] ∧
    mvpCollect ([], []) [c7Card] = .ok ([.str "BTC-USD"], []) ∧
    tradedInUniverse (.str "BTC-USD") c7Strategy.univ = false ∧
    mvpIssues c7Strategy [c7Card] = .ok [] := by decide

/-- C7: **amended**. For `entry.intermarket_trigger` entry cards the
follower symbol is the traded one and a differing `context.symbol` yields
`MVP_SINGLE_ASSET_VIOLATION`; more than one traded symbol yields
`MVP_MULTIPLE_ASSETS`; and with exactly one traded symbol the
`MVP_UNIVERSE_MISMATCH` error is emitted only when the universe is
NON-empty and (has more than one symbol or misses the traded symbol) — an
empty universe emits nothing there. -/
theorem c7_mvp_checks (strategy : Strategy) (cards : List CompiledCard)
    (traded : List Json) (issues : List Issue)
    (h : mvpCollect ([], []) cards = .ok (traded, issues)) :
    (∀ (c : CompiledCard) (context event lf : Json) (sym fol : Option Json),
      c.type = "entry.intermarket_trigger" →
      jlookup c.effective_slots "context" = some context →
      pyGet context "symbol" = .ok sym →
      jlookup c.effective_slots "event" = some event →
      pyIn "lead_follow" event = .ok true →
      pyGetItem event "lead_follow" = .ok lf →
      pyGet lf "follower_symbol" = .ok fol →
      mvpProcessCard c = .ok (fol,
        if sym ≠ fol then
          some { severity := "error", code := "MVP_SINGLE_ASSET_VIOLATION"
                 message := "entry.intermarket_trigger requires context.symbol (" ++
                   pyStrOpt sym ++ ") to equal event.lead_follow.follower_symbol (" ++
                   pyStrOpt fol ++ "). Leader symbols are observation-only."
                 path := some ("attachments[" ++ c.card_id ++ "].effective_slots") }
        else none)) ∧
    (traded.length > 1 →
      ∃ i, mvpIssues strategy cards = .ok (issues ++ [i]) ∧
        i.severity = "error" ∧ i.code = "MVP_MULTIPLE_ASSETS") ∧
    (traded.length = 1 → strategy.univ ≠ [] →
      (strategy.univ.length > 1 ∨
          tradedInUniverse (traded.headD .null) strategy.univ = false →
        ∃ i, mvpIssues strategy cards = .ok (issues ++ [i]) ∧
          i.severity = "error" ∧ i.code = "MVP_UNIVERSE_MISMATCH") ∧
      (¬ strategy.univ.length > 1 →
        tradedInUniverse (traded.headD .null) strategy.univ = true →
        mvpIssues strategy cards = .ok issues)) ∧
    (traded.length = 1 → strategy.univ = [] →
      mvpIssues strategy cards = .ok issues) ∧
    (traded.length = 0 → mvpIssues strategy cards = .ok issues) := by
  refine ⟨?_, ?_, ?_, ?_, ?_⟩
  · intro c context event lf sym fol htype hctx hsym hev hin hget hfol
    simp [mvpProcessCard, htype, hctx, hsym, hev, hin, hget, hfol]
  · intro hl
    simp only [mvpIssues, h]
    simp [hl]
  · intro hl hne
    have hemp : strategy.univ.isEmpty = false := by
      simp [List.isEmpty_iff, hne]
    obtain ⟨t, rfl⟩ : ∃ t, traded = [t] := by
      cases traded with
      | nil => simp at hl
      | cons a rest =>
          cases rest with
          | nil => exact ⟨a, rfl⟩
          | cons b r => simp at hl
    constructor
    · intro hd
      rcases hd with hgt | htr
      · simp only [mvpIssues, h]
        simp [hemp, hgt]
      · by_cases hgt : strategy.univ.length > 1
        · simp only [mvpIssues, h]
          simp [hemp, hgt]
        · simp only [mvpIssues, h]
          simp only [List.headD] at htr
          simp [hemp, hgt, htr]
    · intro hgt htr
      simp only [mvpIssues, h]
      simp only [List.headD] at htr
      simp [hemp, hgt, htr]
  · intro hl hu
    simp [mvpIssues, h, hl, hu]
  · intro hl
    simp [mvpIssues, h, hl]

/-- Witness for C7's amended theorem: one traded symbol, a two-symbol
universe, and the mismatch error fires. -/
theorem c7_mvp_checks_witness :
    ∃ i, mvpIssues c7StrategyMulti [c7Card] = .ok ([] ++ [i]) ∧
      i.severity = "error" ∧ i.code = "MVP_UNIVERSE_MISMATCH" := by
  have h := c7_mvp_checks c7StrategyMulti [c7Card] [.str "BTC-USD"] [] (by decide)
  exact (h.2.2.1 (by decide) (by decide)).1 (.inl (by decide))

/-- The `((symbol, tf), min_bars)` contribution of one compiled card. -/
def contribOf (env : Env) (c : CompiledCard) : (Json × Json) × Int :=
  (cardSymbolTf c, cardMinBars env c)

/-- Folding a list of contributions into the data-requirements dict. -/
def drFold (m : List ((Json × Json) × Int))
    (contribs : List ((Json × Json) × Int)) : List ((Json × Json) × Int) :=
  contribs.foldl (fun acc p => updateDataReq acc p.1 p.2) m

/-- The maximum of the contributions carrying a given key. -/
def keyMax (key : Json × Json) : List ((Json × Json) × Int) → Option Int
  | [] => none
  | p :: rest =>
      if p.1 = key then
        match keyMax key rest with
        | none => some p.2
        | some m => some (max p.2 m)
      else keyMax key rest

/-- The keys of the data-requirements dict. -/
def drKeys (m : List ((Json × Json) × Int)) : List (Json × Json) :=
  m.map Prod.fst

theorem drLookup_drSet_self (m : List ((Json × Json) × Int))
    (k : Json × Json) (v : Int) : drLookup (drSet m k v) k = some v := by
  induction m with
  | nil => simp [drSet, drLookup]
  | cons p rest ih =>
      obtain ⟨k1, v1⟩ := p
      by_cases hk : k1 = k
      · simp [drSet, drLookup, hk]
      · simp [drSet, drLookup, hk, ih]

theorem drLookup_drSet_ne (m : List ((Json × Json) × Int))
    (k : Json × Json) (v : Int) (key : Json × Json) (h : k ≠ key) :
    drLookup (drSet m k v) key = drLookup m key := by
  induction m with
  | nil => simp [drSet, drLookup, h]
  | cons p rest ih =>
      obtain ⟨k1, v1⟩ := p
      by_cases hk : k1 = k
      · subst hk
        simp [drSet, drLookup, h]
      · by_cases hk2 : k1 = key
        · subst hk2
          simp [drSet, drLookup, hk]
        · simp [drSet, drLookup, hk, hk2, ih]

theorem drLookup_updateDataReq_self (m : List ((Json × Json) × Int))
    (k : Json × Json) (v : Int) :
    drLookup (updateDataReq m k v) k =
      some (match drLookup m k with | none => v | some cur => max cur v) := by
  unfold updateDataReq
  cases h : drLookup m k with
  | none => simp [drLookup_drSet_self]
  | some cur =>
      by_cases hv : v > cur
      · have : max cur v = v := by omega
        simp [hv, drLookup_drSet_self, this]
      · have : max cur v = cur := by omega
        simp [hv, h, this]

theorem drLookup_updateDataReq_ne (m : List ((Json × Json) × Int))
    (k : Json × Json) (v : Int) (key : Json × Json) (h : k ≠ key) :
    drLookup (updateDataReq m k v) key = drLookup m key := by
  unfold updateDataReq
  cases hl : drLookup m k with
  | none => simp [drLookup_drSet_ne m k v key h]
  | some cur =>
      by_cases hv : v > cur <;> simp [hv, drLookup_drSet_ne m k v key h]

/-- What the data-requirements fold records under a key: the running
maximum of the matching contributions. -/
theorem drLookup_drFold (key : Json × Json) :
    ∀ (contribs m : List ((Json × Json) × Int)),
      drLookup (drFold m contribs) key =
        match drLookup m key, keyMax key contribs with
        | none, o => o
        | some a, none => some a
        | some a, some b => some (max a b) := by
  intro contribs
  induction contribs with
  | nil =>
      intro m
      simp only [drFold, List.foldl_nil, keyMax]
      cases drLookup m key <;> rfl
  | cons p rest ih =>
      intro m
      have hstep : drFold m (p :: rest) = drFold (updateDataReq m p.1 p.2) rest := rfl
      rw [hstep, ih]
      by_cases hk : p.1 = key
      · subst hk
        rw [drLookup_updateDataReq_self]
        simp only [keyMax, if_pos rfl]
        cases hm : drLookup m p.1 with
        | none => cases hr : keyMax p.1 rest with
          | none => rfl
          | some b => rfl
        | some a =>
            cases hr : keyMax p.1 rest with
            | none => rfl
            | some b => simp [max_assoc]
      · rw [drLookup_updateDataReq_ne m p.1 p.2 key hk]
        simp only [keyMax, if_neg hk]

theorem drLookup_eq_none_iff (m : List ((Json × Json) × Int))
    (key : Json × Json) : drLookup m key = none ↔ key ∉ drKeys m := by
  induction m with
  | nil => simp [drLookup, drKeys]
  | cons p rest ih =>
      by_cases hk : p.1 = key
      · simp [drLookup, drKeys, hk]
      · simp [drLookup, drKeys, hk, ih, Ne.symm hk]

theorem drKeys_drSet_mem (k : Json × Json) (v : Int) :
    ∀ m, k ∈ drKeys m → drKeys (drSet m k v) = drKeys m := by
  intro m
  induction m with
  | nil => intro h; simp [drKeys] at h
  | cons p rest ih =>
      intro h
      obtain ⟨k1, v1⟩ := p
      by_cases hk : k1 = k
      · subst hk
        simp [drSet, drKeys]
      · have hmem : k ∈ drKeys rest := by
          simp [drKeys] at h
          rcases h with h1 | h2
          · exact absurd h1.symm hk
          · simpa [drKeys] using h2
        simp [drSet, drKeys, hk]
        simpa [drKeys] using ih hmem

theorem drKeys_drSet_not_mem (k : Json × Json) (v : Int) :
    ∀ m, k ∉ drKeys m → drKeys (drSet m k v) = drKeys m ++ [k] := by
  intro m
  induction m with
  | nil => intro h; simp [drSet, drKeys]
  | cons p rest ih =>
      intro h
      obtain ⟨k1, v1⟩ := p
      have hk : k1 ≠ k := by
        intro he
        exact h (by simp [drKeys, he])
      have hmem : k ∉ drKeys rest := by
        intro hin
        exact h (by simp [drKeys]; right; simpa [drKeys] using hin)
      simp [drSet, drKeys, hk]
      simpa [drKeys] using ih hmem

theorem drKeys_nodup_drSet (m : List ((Json × Json) × Int)) (k : Json × Json)
    (v : Int) (h : (drKeys m).Nodup) : (drKeys (drSet m k v)).Nodup := by
  rcases Classical.em (k ∈ drKeys m) with hk | hk
  · rw [drKeys_drSet_mem k v m hk]
    exact h
  · rw [drKeys_drSet_not_mem k v m hk]
    simp [List.nodup_append, h, hk]

theorem drKeys_nodup_updateDataReq (m : List ((Json × Json) × Int))
    (k : Json × Json) (v : Int) (h : (drKeys m).Nodup) :
    (drKeys (updateDataReq m k v)).Nodup := by
  unfold updateDataReq
  cases drLookup m k with
  | none => exact drKeys_nodup_drSet m k v h
  | some cur =>
      by_cases hv : v > cur
      · simp only [hv, if_pos]
        exact drKeys_nodup_drSet m k v h
      · simp only [hv, if_neg]
        exact h

theorem drKeys_nodup_drFold (contribs : List ((Json × Json) × Int)) :
    ∀ m, (drKeys m).Nodup → (drKeys (drFold m contribs)).Nodup := by
  induction contribs with
  | nil => intro m h; exact h
  | cons p rest ih =>
      intro m h
      exact ih (updateDataReq m p.1 p.2) (drKeys_nodup_updateDataReq m p.1 p.2 h)

theorem drLookup_of_mem (m : List ((Json × Json) × Int)) (key : Json × Json)
    (v : Int) (hnd : (drKeys m).Nodup) (hmem : (key, v) ∈ m) :
    drLookup m key = some v := by
  induction m with
  | nil => simp at hmem
  | cons p rest ih =>
      obtain ⟨pk, pv⟩ := p
      simp only [drKeys, List.map_cons, List.nodup_cons] at hnd
      obtain ⟨hpk, hnd2⟩ := hnd
      simp only [List.mem_cons] at hmem
      rcases hmem with heq | hmem2
      · injection heq with h1 h2
        subst h1
        subst h2
        simp [drLookup]
      · have hk : (pk, pv).1 ≠ key := by
          intro he
          simp only [] at he
          subst he
          exact hpk (List.mem_map.mpr ⟨(pk, v), hmem2, rfl⟩)
        simp only [drLookup, if_neg hk]
        exact ih hnd2 hmem2

/-- One compile-loop step either leaves the compiled cards and
data-requirements untouched, or appends one card and folds exactly that
card's recomputable contribution into the dict. -/
theorem compileAttachment_shape (env : Env) (st : LoopState) (att : Attachment)
    (st' : LoopState) (h : compileAttachment env st att = .ok st') :
    (st'.compiledCards = st.compiledCards ∧ st'.dataReq = st.dataReq) ∨
    (∃ c, st'.compiledCards = st.compiledCards ++ [c] ∧
      st'.dataReq = updateDataReq st.dataReq (cardSymbolTf c) (cardMinBars env c)) := by
  unfold compileAttachment at h
  cases hen : att.enabled with
  | false =>
      rw [hen] at h
      simp at h
      subst h
      exact .inl ⟨rfl, rfl⟩
  | true =>
      rw [hen] at h
      simp only [Bool.not_true, Bool.false_eq_true, if_false] at h
      have hcore : ∀ (card : Card) (rev : Option String),
          processResolvedCard env att card rev st = .ok st' →
          (st'.compiledCards = st.compiledCards ∧ st'.dataReq = st.dataReq) ∨
          (∃ c, st'.compiledCards = st.compiledCards ++ [c] ∧
            st'.dataReq = updateDataReq st.dataReq (cardSymbolTf c)
              (cardMinBars env c)) := by
        intro card rev hp
        unfold processResolvedCard at hp
        cases hpr : processResolvedCore env att card rev with
        | error e =>
            rw [hpr] at hp
            simp at hp
        | ok o =>
            rw [hpr] at hp
            cases o with
            | skip is =>
                simp at hp
                subst hp
                exact .inl ⟨rfl, rfl⟩
            | compiledOk c key mb =>
                simp at hp
                obtain ⟨hkey, hmb, -, -, -, -, -⟩ :=
                  processResolvedCore_compiledOk env att card rev c key mb hpr
                subst hp
                exact .inr ⟨c, rfl, by rw [hkey, hmb]⟩
      cases hfl : att.follow_latest with
      | true =>
          rw [hfl] at h
          simp only [if_true] at h
          cases hcard : env.cards att.card_id with
          | none =>
              rw [hcard] at h
              simp at h
              subst h
              exact .inl ⟨rfl, rfl⟩
          | some card =>
              rw [hcard] at h
              exact hcore card (some card.updated_at) h
      | false =>
          rw [hfl] at h
          simp only [Bool.false_eq_true, if_false] at h
          cases hcard : env.cards att.card_id with
          | none =>
              rw [hcard] at h
              simp at h
              subst h
              exact .inl ⟨rfl, rfl⟩
          | some card =>
              rw [hcard] at h
              exact hcore card att.card_revision_id h

/-- Along the compile loop, the data-requirements dict stays the fold of
the compiled cards' recomputable contributions. -/
theorem runAttachments_dataReq_inv (env : Env) :
    ∀ (atts : List Attachment) (st st' : LoopState),
      runAttachments (compileAttachment env) st atts = .ok st' →
      st.dataReq = drFold [] (st.compiledCards.map (contribOf env)) →
      st'.dataReq = drFold [] (st'.compiledCards.map (contribOf env)) := by
  intro atts
  induction atts with
  | nil =>
      intro st st' h hP
      unfold runAttachments at h
      simp at h
      subst h
      exact hP
  | cons att rest ih =>
      intro st st' h hP
      unfold runAttachments at h
      cases hstep : compileAttachment env st att with
      | error e =>
          rw [hstep] at h
          simp at h
      | ok st1 =>
          rw [hstep] at h
          simp only [] at h
          rcases compileAttachment_shape env st att st1 hstep with
            ⟨hc, hd⟩ | ⟨c, hc, hd⟩
          · exact ih st1 st' h (by rw [hc, hd]; exact hP)
          · refine ih st1 st' h ?_
            rw [hc, hd, hP]
            simp [drFold, contribOf]

theorem keyMax_eq_none_iff (key : Json × Json)
    (l : List ((Json × Json) × Int)) :
    keyMax key l = none ↔
      (l.filter (fun p => p.1 = key)).map Prod.snd = [] := by
  induction l with
  | nil => simp [keyMax]
  | cons p rest ih =>
      by_cases hk : p.1 = key
      · cases hr : keyMax key rest <;> simp [keyMax, hk, hr]
      · simp [keyMax, hk, ih]

/-- `keyMax` IS the maximum: it returns `m` iff `m` is a matching
contribution and bounds every matching contribution. -/
theorem keyMax_eq_some_iff (key : Json × Json) :
    ∀ (l : List ((Json × Json) × Int)) (m : Int),
      keyMax key l = some m ↔
        (m ∈ (l.filter (fun p => p.1 = key)).map Prod.snd ∧
         ∀ v ∈ (l.filter (fun p => p.1 = key)).map Prod.snd, v ≤ m) := by
  intro l
  induction l with
  | nil => intro m; simp [keyMax]
  | cons p rest ih =>
      intro m
      by_cases hk : p.1 = key
      · cases hr : keyMax key rest with
        | none =>
            have hrest : (rest.filter (fun p => p.1 = key)).map Prod.snd = [] :=
              (keyMax_eq_none_iff key rest).mp hr
            simp [keyMax, hk, hr, hrest]
            omega
        | some b =>
            have hb := (ih b).mp hr
            simp at hb
            simp [keyMax, hk, hr]
            constructor
            · rintro rfl
              refine ⟨?_, le_sup_left, ?_⟩
              · rcases le_total p.2 b with hle | hle
                · right
                  rw [sup_eq_right.mpr hle]
                  exact hb.1
                · left
                  rw [sup_eq_left.mpr hle]
              · intro a ha
                exact le_trans (hb.2 a ha) le_sup_right
            · rintro ⟨hm, hp, hall⟩
              have hbm : b ≤ m := hall b hb.1
              have hge : m ≤ p.2 ⊔ b := by
                rcases hm with rfl | hmem
                · exact le_sup_left
                · exact le_trans (hb.2 m hmem) le_sup_right
              exact le_antisymm (sup_le hp hbm) hge
      · have hstep : keyMax key (p :: rest) = keyMax key rest := by
          simp [keyMax, hk]
        rw [hstep, List.filter_cons_of_neg (by simp [hk]), ih m]

/-- The recorded maximum is independent of the order of the
contributions (hence of attachment order). -/
theorem keyMax_perm (key : Json × Json) {l l' : List ((Json × Json) × Int)}
    (h : l.Perm l') : keyMax key l = keyMax key l' := by
  induction h with
  | nil => rfl
  | cons p h2 ih => simp [keyMax, ih]
  | swap p q t =>
      by_cases hp : p.1 = key <;> by_cases hq : q.1 = key <;>
        cases ht : keyMax key t <;>
          simp [keyMax, hp, hq, ht, max_left_comm, max_comm]
  | trans h1 h2 ih1 ih2 => exact ih1.trans ih2

/-- C6: in a compiled plan each data requirement's `min_bars` is exactly
the maximum (default 100 via `min_history_bars or 100`) of the matching
compiled cards' contributions — a maximum independent of attachment
order — and `lookback_hours = min_bars * hours_per_bar(tf)` with the
source's table, unknown timeframes defaulting to one hour per bar. -/
theorem c6_data_requirements (env : Env) (sid : String) (strategy : Strategy)
    (hs : env.strategies sid = some strategy)
    (r : CompileStrategyResponse) (cs : CompiledStrategy)
    (hr : compileStrategy env sid = .ok r)
    (hc : r.compiled = some cs) :
    (∀ dr ∈ cs.data_requirements,
      keyMax (dr.symbol, dr.tf) (cs.cards.map (contribOf env)) =
        some dr.min_bars ∧
      dr.min_bars ∈ ((cs.cards.map (contribOf env)).filter
        (fun p => p.1 = (dr.symbol, dr.tf))).map Prod.snd ∧
      (∀ v ∈ ((cs.cards.map (contribOf env)).filter
        (fun p => p.1 = (dr.symbol, dr.tf))).map Prod.snd, v ≤ dr.min_bars) ∧
      dr.lookback_hours = pyMulIntFloat dr.min_bars (tfToHours dr.tf)) ∧
    (∀ (key : Json × Json) (l2 : List ((Json × Json) × Int)),
      (cs.cards.map (contribOf env)).Perm l2 →
      keyMax key (cs.cards.map (contribOf env)) = keyMax key l2) ∧
    (tfToHours (.str "1m")).toRat = 1 / 60 ∧
    (tfToHours (.str "5m")).toRat = 5 / 60 ∧
    (tfToHours (.str "15m")).toRat = 15 / 60 ∧
    (tfToHours (.str "1h")).toRat = 1 ∧
    (tfToHours (.str "4h")).toRat = 4 ∧
    (tfToHours (.str "1d")).toRat = 24 ∧
    (∀ s : String, s ∉ (["1m", "5m", "15m", "1h", "4h", "1d"] : List String) →
      tfToHours (.str s) = ⟨1, 1⟩) := by
  unfold compileStrategy at hr
  rw [hs] at hr
  simp only [] at hr
  cases hrun : runAttachments (compileAttachment env) {} strategy.attachments with
  | error e =>
      rw [hrun] at hr
      simp at hr
  | ok stC =>
      rw [hrun] at hr
      simp only [] at hr
      cases hmvp : mvpIssues strategy stC.compiledCards with
      | error e =>
          rw [hmvp] at hr
          simp at hr
      | ok mvp =>
          rw [hmvp] at hr
          simp only [] at hr
          simp only [Except.ok.injEq] at hr
          subst hr
          simp only [] at hc
          rcases ite_eq_iff.mp hc with ⟨hC, hA⟩ | ⟨hC, hB⟩
          case ok.ok.inr.intro => simp at hB
          case ok.ok.inl.intro =>
            injection hA with hA2
            subst hA2
            have hinv := runAttachments_dataReq_inv env strategy.attachments
              {} stC hrun rfl
            have hnd : (drKeys stC.dataReq).Nodup := by
              rw [hinv]
              exact drKeys_nodup_drFold _ [] (by simp [drKeys])
            refine ⟨?_, ?_, ?_, ?_, ?_, ?_, ?_, ?_, ?_⟩
            · intro dr hdr
              simp only [flattenDataReqs, List.mem_map] at hdr
              obtain ⟨e, he, rfl⟩ := hdr
              have hlook : drLookup stC.dataReq e.1 = some e.2 :=
                drLookup_of_mem _ _ _ hnd (by simpa using he)
              have hkm : keyMax e.1
                  (stC.compiledCards.map (contribOf env)) = some e.2 := by
                rw [hinv] at hlook
                rw [drLookup_drFold e.1 (stC.compiledCards.map (contribOf env))
                  []] at hlook
                simpa [drLookup] using hlook
              have hch := (keyMax_eq_some_iff e.1
                (stC.compiledCards.map (contribOf env)) e.2).mp hkm
              exact ⟨hkm, hch.1, hch.2, rfl⟩
            · intro key l2 hperm
              exact keyMax_perm key hperm
            · norm_num [tfToHours, PyFloat.toRat]
            · norm_num [tfToHours, PyFloat.toRat]
            · norm_num [tfToHours, PyFloat.toRat]
            · norm_num [tfToHours, PyFloat.toRat]
            · norm_num [tfToHours, PyFloat.toRat]
            · norm_num [tfToHours, PyFloat.toRat]
            · intro s hs2
              unfold tfToHours
              split <;> simp_all

/-- The compiled strategy inside `cexReadyResp`. -/
def cexReadyCS : CompiledStrategy :=
  { strategy_id := "s1", univ := ["BTC-USD"]
    cards := [{ role := "entry", card_id := "card1"
                card_revision_id := some "t1", type := "entry.breakout"
                effective_slots := [("context",
                  .obj [("symbol", .str "BTC-USD"), ("tf", .str "1h")])] }]
    data_requirements := [{ symbol := .str "BTC-USD", tf := .str "1h"
                            min_bars := 200, lookback_hours := ⟨200, 1⟩ }] }

/-- Witness for C6 on the up-to-date store: the single data requirement's
`min_bars` is the (maximal) contribution of the single compiled card. -/
def cexReadyDR : DataRequirement :=
  { symbol := .str "BTC-USD", tf := .str "1h"
    min_bars := 200, lookback_hours := ⟨200, 1⟩ }

theorem c6_data_requirements_witness :
    keyMax (Json.str "BTC-USD", Json.str "1h")
      (cexReadyCS.cards.map (contribOf cexEnvGood)) = some 200 := by
  have h := (c6_data_requirements cexEnvGood "s1" cexStrategyGood (by decide)
    cexReadyResp cexReadyCS (by decide) (by decide)).1
  have h2 := h cexReadyDR (by decide)
  exact h2.1

end VibeTrade
